import Mathlib

/-!
# scoutfs inode cache and persistence bridge (`src/inode.c`, `src/inode.h`)

A shallow embedding of `inode.c`: the record codec (`load_inode`, `store_inode`), the
bridge to the item store (`scoutfs_read_locked_inode`, `scoutfs_inode_update`), the
identity cache entry points (`scoutfs_iget`, `scoutfs_new_inode`) and the object pool
(`scoutfs_alloc_inode`, `scoutfs_destroy_inode`, `scoutfs_i_callback`,
`scoutfs_inode_init`, `scoutfs_inode_exit`).

Machine integers are `Nat`/`Int` with explicit reduction modulo `2^w`; the build is the
64-bit one (`long` is 64 bits wide).  Execution is sequential: one operation runs to
completion before the next one starts.
-/

namespace Scoutfs

/-! ## Errno values and mode bits -/

def ENOENT : Int := 2
def ENOMEM : Int := 12
def EEXIST : Int := 17

def S_IFMT : Nat := 0o170000
def S_IFSOCK : Nat := 0o140000
def S_IFLNK : Nat := 0o120000
def S_IFREG : Nat := 0o100000
def S_IFBLK : Nat := 0o060000
def S_IFDIR : Nat := 0o040000
def S_IFCHR : Nat := 0o020000
def S_IFIFO : Nat := 0o010000
def S_ISGID : Nat := 0o002000

/-! ## In-memory objects -/

/-- Kernel `struct timespec` on a 64-bit build: both members are signed longs. -/
structure timespec where
  tv_sec : Int
  tv_nsec : Int
deriving DecidableEq

/-- The `i_op` tables an inode can point at in this file. -/
inductive inode_operations where
  | empty_iops
  | scoutfs_dir_iops
deriving DecidableEq

/-- The `i_fop` tables an inode can point at in this file. -/
inductive file_operations where
  | empty_fops
  | scoutfs_dir_fops
  | def_chr_fops
  | def_blk_fops
  | pipefifo_fops
  | bad_sock_fops
deriving DecidableEq

/-- The members of the kernel `struct inode` that `inode.c` reads or writes, with the
three pieces of VFS bookkeeping the identity cache depends on: the reference count
`i_count`, the `I_NEW` bit of `i_state`, and whether `i_hash` is linked into the inode
hash table.  `i_size` is a signed `loff_t`, `i_mode` a 16-bit `umode_t`, the other
scalars are unsigned 32-bit values. -/
structure inode where
  i_ino : Nat
  i_size : Int
  i_nlink : Nat
  i_uid : Nat
  i_gid : Nat
  i_mode : Nat
  i_rdev : Nat
  i_atime : timespec
  i_mtime : timespec
  i_ctime : timespec
  i_blocks : Nat
  i_bytes : Nat
  i_count : Nat
  I_NEW : Bool
  i_hashed : Bool
  i_op : inode_operations
  i_fop : file_operations
deriving DecidableEq

/-- The `struct scoutfs_inode_info` of `inode.h`. -/
structure scoutfs_inode_info where
  ino : Nat
  salt : Nat
  inode : inode
deriving DecidableEq

/-- The accessor `scoutfs_ino` of `inode.h`. -/
def scoutfs_ino (ci : scoutfs_inode_info) : Nat := ci.ino

/-! ## On-disk record -/

/-- The on-disk timestamp: `__le64 sec`, `__le32 nsec`. -/
structure scoutfs_timespec where
  sec : Nat
  nsec : Nat
deriving DecidableEq

/-- Modelled from the spec: `struct scoutfs_inode` is declared in `format.h`, which is not
among the sources.  The fields are the ones `load_inode` and `store_inode` access; their
order and widths are those of the record layout table (size 8 bytes, then link count,
owner id, group id, mode, device number of 4 bytes each, then access, modify and change
time of 8 + 4 bytes each, then the 4-byte integrity token).  A field holds the number its
little-endian bytes denote. -/
structure scoutfs_inode where
  size : Nat
  nlink : Nat
  uid : Nat
  gid : Nat
  mode : Nat
  rdev : Nat
  atime : scoutfs_timespec
  mtime : scoutfs_timespec
  ctime : scoutfs_timespec
  salt : Nat
deriving DecidableEq

/-- Conversion of a C integer to the unsigned type of `w` bits. -/
def to_unsigned (w : Nat) (x : Int) : Nat := (x % (2 : Int) ^ w).toNat

/-- Conversion of an unsigned value to the signed type of `w` bits (two's complement). -/
def to_signed (w : Nat) (x : Nat) : Int :=
  if x % 2 ^ w < 2 ^ (w - 1) then ((x % 2 ^ w : Nat) : Int)
  else ((x % 2 ^ w : Nat) : Int) - (2 : Int) ^ w

/-- The value stored by `cpu_to_le64(x)`: `x` converted to `__u64`. -/
def cpu_to_le64 (x : Int) : Nat := to_unsigned 64 x

/-- The value stored by `cpu_to_le32(x)`: `x` converted to `__u32`. -/
def cpu_to_le32 (x : Int) : Nat := to_unsigned 32 x

/-- The `__u64` read by `le64_to_cpu`. -/
def le64_to_cpu (x : Nat) : Nat := x % 2 ^ 64

/-- The `__u32` read by `le32_to_cpu`. -/
def le32_to_cpu (x : Nat) : Nat := x % 2 ^ 32

/-- The function `load_inode` of `inode.c`: `i_size_write` converts the `u64` to the signed
`loff_t`, the assignment to `i_mode` converts to the 16-bit `umode_t`, the assignments to
`tv_sec` convert to the signed `long`, and the `u32` nanoseconds are widened to `long`. -/
def load_inode (ci : scoutfs_inode_info) (cinode : scoutfs_inode) : scoutfs_inode_info :=
  { ci with
    inode :=
      { ci.inode with
        i_size := to_signed 64 (le64_to_cpu cinode.size)
        i_nlink := le32_to_cpu cinode.nlink
        i_uid := le32_to_cpu cinode.uid
        i_gid := le32_to_cpu cinode.gid
        i_mode := le32_to_cpu cinode.mode % 2 ^ 16
        i_rdev := le32_to_cpu cinode.rdev
        i_atime :=
          { tv_sec := to_signed 64 (le64_to_cpu cinode.atime.sec)
            tv_nsec := (le32_to_cpu cinode.atime.nsec : Nat) }
        i_mtime :=
          { tv_sec := to_signed 64 (le64_to_cpu cinode.mtime.sec)
            tv_nsec := (le32_to_cpu cinode.mtime.nsec : Nat) }
        i_ctime :=
          { tv_sec := to_signed 64 (le64_to_cpu cinode.ctime.sec)
            tv_nsec := (le32_to_cpu cinode.ctime.nsec : Nat) } }
    salt := le32_to_cpu cinode.salt }

/-- The function `store_inode` of `inode.c`: every field of the record is assigned from
the in-memory object. -/
def store_inode (cinode : scoutfs_inode) (ci : scoutfs_inode_info) : scoutfs_inode :=
  { cinode with
    size := cpu_to_le64 ci.inode.i_size
    nlink := cpu_to_le32 ci.inode.i_nlink
    uid := cpu_to_le32 ci.inode.i_uid
    gid := cpu_to_le32 ci.inode.i_gid
    mode := cpu_to_le32 ci.inode.i_mode
    rdev := cpu_to_le32 ci.inode.i_rdev
    atime :=
      { sec := cpu_to_le64 ci.inode.i_atime.tv_sec
        nsec := cpu_to_le32 ci.inode.i_atime.tv_nsec }
    ctime :=
      { sec := cpu_to_le64 ci.inode.i_ctime.tv_sec
        nsec := cpu_to_le32 ci.inode.i_ctime.tv_nsec }
    mtime :=
      { sec := cpu_to_le64 ci.inode.i_mtime.tv_sec
        nsec := cpu_to_le32 ci.inode.i_mtime.tv_nsec }
    salt := cpu_to_le32 ci.salt }

/-- The fields of an in-memory inode that the record carries: size, link count, uid, gid,
mode, rdev, access, modify and change time, salt. -/
def persisted_fields (ci : scoutfs_inode_info) :
    Int × Nat × Nat × Nat × Nat × Nat × timespec × timespec × timespec × Nat :=
  (ci.inode.i_size, ci.inode.i_nlink, ci.inode.i_uid, ci.inode.i_gid, ci.inode.i_mode,
    ci.inode.i_rdev, ci.inode.i_atime, ci.inode.i_mtime, ci.inode.i_ctime, ci.salt)

/-- A timestamp the kernel regards as valid: seconds in the range of the signed 64-bit
`long`, nanoseconds in `[0, 10^9)`. -/
def timespec_valid (t : timespec) : Prop :=
  -(2 : Int) ^ 63 ≤ t.tv_sec ∧ t.tv_sec < (2 : Int) ^ 63 ∧ 0 ≤ t.tv_nsec ∧ t.tv_nsec < 10 ^ 9

instance (t : timespec) : Decidable (timespec_valid t) := by
  unfold timespec_valid; infer_instance

/-- A valid in-memory inode: every persisted field is a value of its C type, and the
timestamps are valid. -/
def inode_valid (ci : scoutfs_inode_info) : Prop :=
  -(2 : Int) ^ 63 ≤ ci.inode.i_size ∧ ci.inode.i_size < (2 : Int) ^ 63 ∧
  ci.inode.i_nlink < 2 ^ 32 ∧ ci.inode.i_uid < 2 ^ 32 ∧ ci.inode.i_gid < 2 ^ 32 ∧
  ci.inode.i_mode < 2 ^ 16 ∧ ci.inode.i_rdev < 2 ^ 32 ∧
  timespec_valid ci.inode.i_atime ∧ timespec_valid ci.inode.i_mtime ∧
  timespec_valid ci.inode.i_ctime ∧ ci.salt < 2 ^ 32

instance (ci : scoutfs_inode_info) : Decidable (inode_valid ci) := by
  unfold inode_valid; infer_instance

deriving instance DecidableEq for Except

/-! ## Record bytes -/

/-- The `w` little-endian bytes of `v`. -/
def le_bytes : Nat → Nat → List Nat
  | 0, _ => []
  | w + 1, v => v % 256 :: le_bytes w (v / 256)

/-- The number a little-endian byte string denotes. -/
def le_value : List Nat → Nat
  | [] => 0
  | b :: bs => b % 256 + 256 * le_value bs

/-- The little-endian integer of `w` bytes read at offset `off` of the memory `mem`.  Bytes
of memory the model does not hold read as zero. -/
def field_at (mem : List Nat) (off w : Nat) : Nat := le_value ((mem.drop off).take w)

/-- The value of `sizeof(struct scoutfs_inode)` for the layout of the record table. -/
def sizeof_scoutfs_inode : Nat := 68

/-- Modelled from the spec: the view of the memory at a pointer as a `struct scoutfs_inode`
(the cast of `item->val`), with the field offsets of the record layout table; `format.h`
is not among the sources. -/
def scoutfs_inode_at (mem : List Nat) : scoutfs_inode :=
  { size := field_at mem 0 8
    nlink := field_at mem 8 4
    uid := field_at mem 12 4
    gid := field_at mem 16 4
    mode := field_at mem 20 4
    rdev := field_at mem 24 4
    atime := { sec := field_at mem 28 8, nsec := field_at mem 36 4 }
    mtime := { sec := field_at mem 40 8, nsec := field_at mem 48 4 }
    ctime := { sec := field_at mem 52 8, nsec := field_at mem 60 4 }
    salt := field_at mem 64 4 }

/-- Modelled from the spec: the 68 bytes of a `struct scoutfs_inode`, in the field order of
the record layout table, every integer little-endian. -/
def scoutfs_inode_bytes (r : scoutfs_inode) : List Nat :=
  le_bytes 8 r.size ++ (le_bytes 4 r.nlink ++ (le_bytes 4 r.uid ++ (le_bytes 4 r.gid ++
  (le_bytes 4 r.mode ++ (le_bytes 4 r.rdev ++ (le_bytes 8 r.atime.sec ++
  (le_bytes 4 r.atime.nsec ++ (le_bytes 8 r.mtime.sec ++ (le_bytes 4 r.mtime.nsec ++
  (le_bytes 8 r.ctime.sec ++ (le_bytes 4 r.ctime.nsec ++ le_bytes 4 r.salt)))))))))))

/-- The memory at a pointer after a `struct scoutfs_inode` has been written through it:
the 68 bytes of the struct, followed by what the memory held after them. -/
def write_scoutfs_inode (mem : List Nat) (r : scoutfs_inode) : List Nat :=
  scoutfs_inode_bytes r ++ mem.drop sizeof_scoutfs_inode

/-! ## Item store -/

/-- Modelled from the spec: `struct scoutfs_key` (`format.h`, `key.h` are not among the
sources): inode number, record type, sub-index. -/
structure scoutfs_key where
  inode : Nat
  type : Nat
  offset : Nat
deriving DecidableEq

/-- Modelled from the spec: the fixed "inode" record type of `format.h`.  Only its being
one fixed constant is used. -/
def SCOUTFS_INODE_KEY : Nat := 1

/-- Modelled from the spec: `scoutfs_set_key` of `key.h` fills the three members. -/
def scoutfs_set_key (inode type offset : Nat) : scoutfs_key :=
  { inode := inode, type := type, offset := offset }

/-- Modelled from the spec: an item of the item store (`item.h` is not among the sources):
its key, the length `val_len` of its value, and the bytes in memory at `item->val`, of
which the first `val_len` are the value. -/
structure scoutfs_item where
  key : scoutfs_key
  val_len : Nat
  val : List Nat
deriving DecidableEq

/-- Modelled from the spec: `scoutfs_item_lookup` of `item.c` (not among the sources):
"lookup(key) -> record-or-NotFound".  The error is the `ERR_PTR` value `-ENOENT`. -/
def scoutfs_item_lookup (items : List scoutfs_item) (key : scoutfs_key) :
    Except Int scoutfs_item :=
  match items.find? (fun it => it.key = key) with
  | some it => .ok it
  | none => .error (-ENOENT)

/-- Modelled from the spec: `scoutfs_item_create` of `item.c` (not among the sources):
"create(key, size) -> fresh zero-initialized record", which "fails with AlreadyExists if a
record for that number is already present".  Returns the new item and the store holding
it. -/
def scoutfs_item_create (items : List scoutfs_item) (key : scoutfs_key) (bytes : Nat) :
    Except Int (scoutfs_item × List scoutfs_item) :=
  match items.find? (fun it => it.key = key) with
  | some _ => .error (-EEXIST)
  | none =>
    let item : scoutfs_item := { key := key, val_len := bytes, val := List.replicate bytes 0 }
    .ok (item, item :: items)

/-- The store after the memory at the `val` pointer of the item found under `key` has been
overwritten with `val`. -/
def item_write_val : List scoutfs_item → scoutfs_key → List Nat → List scoutfs_item
  | [], _, _ => []
  | it :: rest, key, val =>
    if it.key = key then { it with val := val } :: rest
    else it :: item_write_val rest key val

/-! ## Kernel state -/

/-- A slab cache of inode objects.  Objects are named by their slot number: `nr_objs`
slots have been carved out so far, `free` holds the slots given back by
`kmem_cache_free`, and `limit` is the number of slots memory allows. -/
structure kmem_cache where
  free : List Nat
  nr_objs : Nat
  limit : Nat
deriving DecidableEq

/-- The state the functions of `inode.c` act on: the module global
`scoutfs_inode_cachep`, the callbacks queued by `call_rcu` whose grace period has not yet
elapsed (each is `scoutfs_i_callback` on the named slot), the counter `sbi->next_ino`,
the items of the item store, and the live inode objects of the super block by address
(slot number), most recently allocated first. -/
structure State where
  scoutfs_inode_cachep : Option kmem_cache
  rcu : List Nat
  next_ino : Nat
  items : List scoutfs_item
  inodes : List (Nat × scoutfs_inode_info)
deriving DecidableEq

/-- What the calling process, the clock and the random pool supply to `scoutfs_new_inode`:
`current_fsuid()`, `current_fsgid()`, `CURRENT_TIME` and the bytes of
`get_random_bytes`. -/
structure task_env where
  fsuid : Nat
  fsgid : Nat
  now : timespec
  random : Nat
deriving DecidableEq

/-! ## Object pool -/

/-- Kernel `kmem_cache_alloc`: a freed slot if there is one, else a new slot while memory
lasts, else `NULL`. -/
def kmem_cache_alloc (c : kmem_cache) : Option (Nat × kmem_cache) :=
  match c.free with
  | a :: rest => some (a, { c with free := rest })
  | [] =>
    if c.nr_objs < c.limit then some (c.nr_objs, { c with nr_objs := c.nr_objs + 1 })
    else none

/-- Kernel `kmem_cache_free`: the slot is available to `kmem_cache_alloc` again. -/
def kmem_cache_free (c : kmem_cache) (a : Nat) : kmem_cache :=
  { c with free := a :: c.free }

/-- The function `scoutfs_inode_init` of `inode.c`; `created` is what `kmem_cache_create`
returned. -/
def scoutfs_inode_init (s : State) (created : Option kmem_cache) : Int × State :=
  match created with
  | none => (-ENOMEM, { s with scoutfs_inode_cachep := none })
  | some c => (0, { s with scoutfs_inode_cachep := some c })

/-- The function `scoutfs_alloc_inode` of `inode.c`. -/
def scoutfs_alloc_inode (s : State) : Option Nat × State :=
  match s.scoutfs_inode_cachep with
  | none => (none, s)
  | some c =>
    match kmem_cache_alloc c with
    | none => (none, s)
    | some (a, c1) => (some a, { s with scoutfs_inode_cachep := some c1 })

/-- The function `scoutfs_i_callback` of `inode.c`: `kmem_cache_free` of the object. -/
def scoutfs_i_callback (s : State) (head : Nat) : State :=
  match s.scoutfs_inode_cachep with
  | none => s
  | some c => { s with scoutfs_inode_cachep := some (kmem_cache_free c head) }

/-- Kernel `call_rcu` with the callback `scoutfs_i_callback`: the callback is queued. -/
def call_rcu (s : State) (head : Nat) : State :=
  { s with rcu := s.rcu ++ [head] }

/-- The function `scoutfs_destroy_inode` of `inode.c`. -/
def scoutfs_destroy_inode (s : State) (a : Nat) : State :=
  call_rcu s a

/-- The grace period of the oldest queued callback elapses: RCU invokes it. -/
def rcu_grace_period (s : State) : State :=
  match s.rcu with
  | [] => s
  | a :: rest => scoutfs_i_callback { s with rcu := rest } a

/-- The members set by the kernel `inode_init_always` on every allocation: one
reference, link count 1, size 0, no owner, empty operations, not hashed. -/
def inode_init_always : inode :=
  { i_ino := 0, i_size := 0, i_nlink := 1, i_uid := 0, i_gid := 0, i_mode := 0, i_rdev := 0
    i_atime := { tv_sec := 0, tv_nsec := 0 }
    i_mtime := { tv_sec := 0, tv_nsec := 0 }
    i_ctime := { tv_sec := 0, tv_nsec := 0 }
    i_blocks := 0, i_bytes := 0, i_count := 1, I_NEW := false, i_hashed := false
    i_op := inode_operations.empty_iops, i_fop := file_operations.empty_fops }

/-- A freshly allocated `scoutfs_inode_info`. -/
def fresh_inode_info : scoutfs_inode_info :=
  { ino := 0, salt := 0, inode := inode_init_always }

/-- The object a live pointer refers to. -/
def get_obj (s : State) (a : Nat) : scoutfs_inode_info :=
  match s.inodes.find? (fun p => p.1 = a) with
  | some p => p.2
  | none => fresh_inode_info

/-- Replace the object at address `a` by `f` of it. -/
def update_first : List (Nat × scoutfs_inode_info) → Nat →
    (scoutfs_inode_info → scoutfs_inode_info) → List (Nat × scoutfs_inode_info)
  | [], _, _ => []
  | p :: rest, a, f =>
    if p.1 = a then (p.1, f p.2) :: rest else p :: update_first rest a f

/-- A write through a live pointer. -/
def modify (s : State) (a : Nat) (f : scoutfs_inode_info → scoutfs_inode_info) : State :=
  { s with inodes := update_first s.inodes a f }

/-- Kernel `alloc_inode`: the super block's `alloc_inode` method, which for scoutfs is
`scoutfs_alloc_inode`, then `inode_init_always`. -/
def alloc_inode (s : State) : Option Nat × State :=
  match scoutfs_alloc_inode s with
  | (none, s1) => (none, s1)
  | (some a, s1) => (some a, { s1 with inodes := (a, fresh_inode_info) :: s1.inodes })

/-- Kernel `new_inode`: `alloc_inode`, `i_state = 0`, and the inode joins the super
block's list.  It is not inserted into the inode hash table. -/
def new_inode (s : State) : Option Nat × State :=
  match alloc_inode s with
  | (none, s1) => (none, s1)
  | (some a, s1) =>
    (some a, modify s1 a (fun ci => { ci with inode := { ci.inode with I_NEW := false } }))

/-- The function `scoutfs_iget_test` of `inode.c`. -/
def scoutfs_iget_test (ci : scoutfs_inode_info) (ino : Nat) : Bool :=
  ci.ino = ino

/-- The function `scoutfs_iget_set` of `inode.c` (it always returns 0). -/
def scoutfs_iget_set (ci : scoutfs_inode_info) (ino : Nat) : scoutfs_inode_info :=
  { ci with ino := ino, inode := { ci.inode with i_ino := ino } }

/-- Kernel `find_inode`: the first inode in the hash table that `test` accepts. -/
def find_inode (s : State) (test : scoutfs_inode_info → Nat → Bool) (data : Nat) :
    Option Nat :=
  (s.inodes.find? (fun p => p.2.inode.i_hashed && test p.2 data)).map (fun p => p.1)

/-- Kernel `iget5_locked`: an inode found in the hash table gains a reference and is
returned; otherwise a new inode is allocated, initialised by `set`, marked `I_NEW` and
inserted into the hash table.  `NULL` when the allocation fails. -/
def iget5_locked (s : State) (_hashval : Nat) (test : scoutfs_inode_info → Nat → Bool)
    (set : scoutfs_inode_info → Nat → scoutfs_inode_info) (data : Nat) : Option Nat × State :=
  match find_inode s test data with
  | some a =>
    (some a, modify s a (fun ci =>
      { ci with inode := { ci.inode with i_count := ci.inode.i_count + 1 } }))
  | none =>
    match alloc_inode s with
    | (none, s1) => (none, s1)
    | (some a, s1) =>
      (some a, modify s1 a (fun ci =>
        let ci1 := set ci data
        { ci1 with inode := { ci1.inode with I_NEW := true, i_hashed := true } }))

/-- Kernel `unlock_new_inode`: clears `I_NEW`. -/
def unlock_new_inode (s : State) (a : Nat) : State :=
  modify s a (fun ci => { ci with inode := { ci.inode with I_NEW := false } })

/-- Kernel `make_bad_inode`: the inode is removed from the hash table and marked bad. -/
def make_bad_inode (s : State) (a : Nat) : State :=
  modify s a (fun ci => { ci with inode := { ci.inode with i_hashed := false, i_mode := S_IFREG } })

/-- Kernel `evict` followed by `destroy_inode`: the inode leaves the hash table and the
super block's list, and the super block's `destroy_inode` method, which for scoutfs is
`scoutfs_destroy_inode`, is called on it. -/
def evict (s : State) (a : Nat) : State :=
  scoutfs_destroy_inode { s with inodes := s.inodes.filter (fun p => p.1 ≠ a) } a

/-- Kernel `iput`: drops a reference; when it was the last one, an inode that is unhashed
or has no links is evicted, any other stays in the inode cache. -/
def iput (s : State) (a : Nat) : State :=
  let ci := get_obj s a
  if ci.inode.i_count ≤ 1 then
    if ci.inode.i_nlink = 0 ∨ ci.inode.i_hashed = false then evict s a
    else modify s a (fun ci => { ci with inode := { ci.inode with i_count := 0 } })
  else modify s a (fun ci => { ci with inode := { ci.inode with i_count := ci.inode.i_count - 1 } })

/-- Kernel `iget_failed`. -/
def iget_failed (s : State) (a : Nat) : State :=
  iput (unlock_new_inode (make_bad_inode s a) a) a

/-- Kernel `init_special_inode`. -/
def init_special_inode (i : inode) (mode rdev : Nat) : inode :=
  let i1 := { i with i_mode := mode }
  if mode &&& S_IFMT = S_IFCHR then
    { i1 with i_fop := file_operations.def_chr_fops, i_rdev := rdev }
  else if mode &&& S_IFMT = S_IFBLK then
    { i1 with i_fop := file_operations.def_blk_fops, i_rdev := rdev }
  else if mode &&& S_IFMT = S_IFIFO then
    { i1 with i_fop := file_operations.pipefifo_fops }
  else if mode &&& S_IFMT = S_IFSOCK then
    { i1 with i_fop := file_operations.bad_sock_fops }
  else i1

/-- The function `set_inode_ops` of `inode.c`. -/
def set_inode_ops (i : inode) : inode :=
  if i.i_mode &&& S_IFMT = S_IFREG then i
  else if i.i_mode &&& S_IFMT = S_IFDIR then
    { i with i_op := inode_operations.scoutfs_dir_iops
             i_fop := file_operations.scoutfs_dir_fops }
  else if i.i_mode &&& S_IFMT = S_IFLNK then i
  else init_special_inode i i.i_mode i.i_rdev

/-- Kernel `inode_init_owner`. -/
def inode_init_owner (i : inode) (dir : Option inode) (mode : Nat) (e : task_env) : inode :=
  let i1 := { i with i_uid := e.fsuid }
  match dir with
  | some d =>
    if d.i_mode &&& S_ISGID ≠ 0 then
      { i1 with i_gid := d.i_gid
                i_mode := if mode &&& S_IFMT = S_IFDIR then mode ||| S_ISGID else mode }
    else { i1 with i_gid := e.fsgid, i_mode := mode }
  | none => { i1 with i_gid := e.fsgid, i_mode := mode }

/-- Kernel `atomic64_inc_return` on a 64-bit counter: the incremented value. -/
def atomic64_inc_return (v : Nat) : Nat := (v + 1) % 2 ^ 64

/-! ## Persistence bridge and entry points -/

/-- The function `scoutfs_read_locked_inode` of `inode.c`: the return value and the inode
after the call. -/
def scoutfs_read_locked_inode (s : State) (ci : scoutfs_inode_info) :
    Int × scoutfs_inode_info :=
  let key := scoutfs_set_key (scoutfs_ino ci) SCOUTFS_INODE_KEY 0
  match scoutfs_item_lookup s.items key with
  | .error e => (e, ci)
  | .ok item => (0, load_inode ci (scoutfs_inode_at item.val))

/-- The function `scoutfs_iget` of `inode.c`: the returned pointer or `ERR_PTR` value, and
the state after the call. -/
def scoutfs_iget (s : State) (ino : Nat) : Except Int Nat × State :=
  match iget5_locked s ino scoutfs_iget_test scoutfs_iget_set ino with
  | (none, s1) => (.error (-ENOMEM), s1)
  | (some a, s1) =>
    if (get_obj s1 a).inode.I_NEW then
      let r := scoutfs_read_locked_inode s1 (get_obj s1 a)
      let s2 := modify s1 a (fun _ => r.2)
      if r.1 ≠ 0 then (.error r.1, iget_failed s2 a)
      else
        (.ok a, unlock_new_inode
          (modify s2 a (fun ci => { ci with inode := set_inode_ops ci.inode })) a)
    else (.ok a, s1)

/-- The function `scoutfs_inode_update` of `inode.c`: the return value and the state after
the call. -/
def scoutfs_inode_update (s : State) (ci : scoutfs_inode_info) : Int × State :=
  let key := scoutfs_set_key (scoutfs_ino ci) SCOUTFS_INODE_KEY 0
  match scoutfs_item_lookup s.items key with
  | .error e => (e, s)
  | .ok item =>
    let cinode := store_inode (scoutfs_inode_at item.val) ci
    (0, { s with items := item_write_val s.items key (write_scoutfs_inode item.val cinode) })

/-- Lines 231 to 240 of `scoutfs_new_inode`: the initialisation of the new object `ci`
once `ino` has been drawn from the counter. -/
def new_inode_setup (ci : scoutfs_inode_info) (ino : Nat) (dir : Option inode)
    (mode rdev : Nat) (e : task_env) : scoutfs_inode_info :=
  let i1 := { ci.inode with i_ino := ino }
  let i2 := inode_init_owner i1 dir mode e
  let i3 := { i2 with i_blocks := 0, i_bytes := 0 }
  let i4 := { i3 with i_mtime := e.now, i_atime := e.now, i_ctime := e.now }
  let i5 := { i4 with i_rdev := rdev }
  { ino := ino, salt := e.random % 2 ^ 32, inode := set_inode_ops i5 }

/-- The function `scoutfs_new_inode` of `inode.c`: the returned pointer or `ERR_PTR`
value, and the state after the call. -/
def scoutfs_new_inode (s : State) (dir : Option inode) (mode rdev : Nat) (e : task_env) :
    Except Int Nat × State :=
  match new_inode s with
  | (none, s1) => (.error (-ENOMEM), s1)
  | (some a, s1) =>
    let ino := atomic64_inc_return s1.next_ino
    let s2 := { s1 with next_ino := ino }
    let s3 := modify s2 a (fun ci => new_inode_setup ci ino dir mode rdev e)
    let key := scoutfs_set_key (scoutfs_ino (get_obj s3 a)) SCOUTFS_INODE_KEY 0
    match scoutfs_item_create s3.items key sizeof_scoutfs_inode with
    | .error err => (.error err, iput s3 a)
    | .ok r => (.ok a, { s3 with items := r.2 })

/-! ## Traces -/

/-- The calls a user of `inode.c` and RCU make. -/
inductive Op where
  | new_inode (dir : Option inode) (mode rdev : Nat) (e : task_env)
  | iget (ino : Nat)
  | iput (a : Nat)
  | update (a : Nat)
  | grace_period

/-- One call.  `iput` and `scoutfs_inode_update` are made on an inode the caller holds a
reference to; a call without one does not happen. -/
def step (s : State) : Op → State
  | .new_inode dir mode rdev e => (scoutfs_new_inode s dir mode rdev e).2
  | .iget ino => (scoutfs_iget s ino).2
  | .iput a =>
    if (∃ p ∈ s.inodes, p.1 = a) ∧ 0 < (get_obj s a).inode.i_count then iput s a else s
  | .update a =>
    if (∃ p ∈ s.inodes, p.1 = a) ∧ 0 < (get_obj s a).inode.i_count then
      (scoutfs_inode_update s (get_obj s a)).2
    else s
  | .grace_period => rcu_grace_period s

/-- The state after a sequence of calls. -/
def run (s : State) (ops : List Op) : State :=
  ops.foldl step s

/-- The state once `scoutfs_inode_init` has created the cache (`kmem_cache_create` returned
an empty cache with room for `limit` objects) and a super block with the given counter and
items is mounted: no object allocated yet. -/
def mounted (limit next_ino : Nat) (items : List scoutfs_item) : State :=
  (scoutfs_inode_init
    { scoutfs_inode_cachep := none, rcu := [], next_ino := next_ino, items := items
      inodes := [] }
    (some { free := [], nr_objs := 0, limit := limit })).2

/-- The inode numbers of the objects in the inode hash table. -/
def hashed_inos (s : State) : List Nat :=
  (s.inodes.filter (fun p => p.2.inode.i_hashed)).map (fun p => p.2.ino)

/-- The addresses of the live objects. -/
def live (s : State) : List Nat :=
  s.inodes.map (fun p => p.1)

/-- The arguments of one `scoutfs_new_inode` call. -/
structure new_inode_args where
  dir : Option inode
  mode : Nat
  rdev : Nat
  e : task_env

/-- A sequence of `scoutfs_new_inode` calls on one super block: the inode numbers of the
objects returned, in call order, and the final state. -/
def new_inode_calls (s : State) : List new_inode_args → List Nat × State
  | [] => ([], s)
  | c :: rest =>
    match scoutfs_new_inode s c.dir c.mode c.rdev c.e with
    | (.ok a, s1) => ((get_obj s1 a).ino :: (new_inode_calls s1 rest).1, (new_inode_calls s1 rest).2)
    | (.error _, s1) => new_inode_calls s1 rest

/-- The object `iget5_locked` inserts for a number not in the hash table. -/
def iget_new_obj (ino : Nat) : scoutfs_inode_info :=
  let ci1 := scoutfs_iget_set fresh_inode_info ino
  { ci1 with inode := { ci1.inode with I_NEW := true, i_hashed := true } }

/-- The object `scoutfs_iget` leaves in the hash table for a number whose record it found
in `item`. -/
def iget_loaded_obj (ino : Nat) (item : scoutfs_item) : scoutfs_inode_info :=
  let ci := load_inode (iget_new_obj ino) (scoutfs_inode_at item.val)
  { ci with inode := { set_inode_ops ci.inode with I_NEW := false } }

/-- Every object in the inode hash table was loaded from a record that is still in the item
store: the store holds an item under the key of its number. -/
def Backed (s : State) : Prop :=
  ∀ p ∈ s.inodes, p.2.inode.i_hashed = true →
    ∃ it ∈ s.items, it.key = scoutfs_set_key p.2.ino SCOUTFS_INODE_KEY 0

/-- A mounted state with room for a single inode object. -/
def one_slot_state : State := mounted 1 41 []

/-- The invariant of the reachable states: the cache exists; free slots, slots awaiting
their grace period and live objects are pairwise distinct slots the cache carved out; the
hashed objects carry distinct inode numbers; no object is left `I_NEW` between calls. -/
def Inv (s : State) : Prop :=
  (∃ c, s.scoutfs_inode_cachep = some c ∧ (c.free ++ (s.rcu ++ live s)).Nodup ∧
    ∀ x ∈ c.free ++ (s.rcu ++ live s), x < c.nr_objs) ∧
  (hashed_inos s).Nodup ∧ ∀ p ∈ s.inodes, p.2.inode.I_NEW = false

/-- A record whose every field is a value of its width. -/
def record_wf (r : scoutfs_inode) : Prop :=
  r.size < 2 ^ 64 ∧ r.nlink < 2 ^ 32 ∧ r.uid < 2 ^ 32 ∧ r.gid < 2 ^ 32 ∧ r.mode < 2 ^ 32 ∧
  r.rdev < 2 ^ 32 ∧ r.atime.sec < 2 ^ 64 ∧ r.atime.nsec < 2 ^ 32 ∧ r.mtime.sec < 2 ^ 64 ∧
  r.mtime.nsec < 2 ^ 32 ∧ r.ctime.sec < 2 ^ 64 ∧ r.ctime.nsec < 2 ^ 32 ∧ r.salt < 2 ^ 32

/-! ## Sample inputs -/

/-- A sample inode: a regular file of 4096 bytes. -/
def sample_inode : scoutfs_inode_info :=
  { ino := 42, salt := 3735928559
    inode :=
      { inode_init_always with
        i_ino := 42, i_size := 4096, i_nlink := 1, i_uid := 1000, i_gid := 100
        i_mode := 0o100644
        i_atime := { tv_sec := 1446400000, tv_nsec := 999999999 }
        i_mtime := { tv_sec := -1, tv_nsec := 0 }
        i_ctime := { tv_sec := 1446400001, tv_nsec := 5 } } }

/-- The 68 bytes of a record of a regular file, and those of a record whose mode field
has a bit above the low 16 set. -/
def sample_record_bytes (mode : Nat) : List Nat :=
  scoutfs_inode_bytes
    { size := 4096, nlink := 1, uid := 1000, gid := 100, mode := mode, rdev := 0
      atime := { sec := 1446400000, nsec := 7 }
      mtime := { sec := 2 ^ 64 - 1, nsec := 0 }
      ctime := { sec := 1446400001, nsec := 5 }
      salt := 3735928559 }

/-- The key of the inode record of number `ino`. -/
def inode_key (ino : Nat) : scoutfs_key := scoutfs_set_key ino SCOUTFS_INODE_KEY 0

/-- A mounted state whose item store holds one item under the key of inode 7: a value of
three bytes. -/
def short_record_state : State :=
  mounted 4 0 [{ key := inode_key 7, val_len := 3, val := [1, 2, 3] }]

/-- A mounted state whose item store holds a full-length record of inode 42, of all-ones
bytes. -/
def stale_record_state : State :=
  mounted 4 42 [{ key := inode_key 42, val_len := 68, val := List.replicate 68 255 }]

/-- A full-length record of zero bytes for inode `ino`. -/
def blank_record (ino : Nat) : scoutfs_item :=
  { key := inode_key ino, val_len := 68, val := List.replicate 68 0 }

/-- A mounted state whose item store holds a zero-filled record of inode 7. -/
def blank_record_state : State := mounted 4 41 [blank_record 7]

/-- A mounted state whose counter stands at 41 and whose item store already holds a record
of inode 42, the number the next `scoutfs_new_inode` draws. -/
def colliding_state : State := mounted 4 41 [blank_record 42]

/-- The environment of the sample calls. -/
def sample_env : task_env :=
  { fsuid := 1000, fsgid := 100, now := { tv_sec := 1446400000, tv_nsec := 5 }, random := 77 }

/-- The state after `scoutfs_new_inode` has created inode 42, a regular file of mode
0100644, on a freshly mounted super block whose counter stands at 41. -/
def created_state : State :=
  (scoutfs_new_inode (mounted 4 41 []) none 0o100644 0 sample_env).2

/-- The arguments of the sample `scoutfs_new_inode` calls. -/
def sample_args : new_inode_args :=
  { dir := none, mode := 0o100644, rdev := 0, e := sample_env }

/-- The persisted fields read from a zero-filled record. -/
def blank_fields : Int × Nat × Nat × Nat × Nat × Nat × timespec × timespec × timespec × Nat :=
  (0, 0, 0, 0, 0, 0, { tv_sec := 0, tv_nsec := 0 }, { tv_sec := 0, tv_nsec := 0 },
    { tv_sec := 0, tv_nsec := 0 }, 0)

/-! # Theorems -/

/-! ## Codec lemmas -/

theorem to_signed_to_unsigned (x : Int) (h1 : -(2 : Int) ^ 63 ≤ x) (h2 : x < (2 : Int) ^ 63) :
    to_signed 64 (to_unsigned 64 x % 2 ^ 64) = x := by
  unfold to_signed to_unsigned
  have hm : (0 : Int) ≤ x % (2 : Int) ^ 64 := Int.emod_nonneg _ (by norm_num)
  have hlt : x % (2 : Int) ^ 64 < (2 : Int) ^ 64 := Int.emod_lt_of_pos _ (by norm_num)
  have hcast : (((x % (2 : Int) ^ 64).toNat : Nat) : Int) = x % (2 : Int) ^ 64 :=
    Int.toNat_of_nonneg hm
  have hnat : (x % (2 : Int) ^ 64).toNat < 2 ^ 64 := by
    have : (((x % (2 : Int) ^ 64).toNat : Nat) : Int) < ((2 ^ 64 : Nat) : Int) := by
      rw [hcast]; exact_mod_cast hlt
    exact_mod_cast this
  rw [Nat.mod_eq_of_lt hnat, Nat.mod_eq_of_lt hnat]
  by_cases hx : 0 ≤ x
  · have e : x % (2 : Int) ^ 64 = x := Int.emod_eq_of_lt hx (by linarith)
    have hlt2 : (x % (2 : Int) ^ 64).toNat < 2 ^ (64 - 1) := by
      have : (((x % (2 : Int) ^ 64).toNat : Nat) : Int) < ((2 ^ 63 : Nat) : Int) := by
        rw [hcast, e]; exact_mod_cast h2
      exact_mod_cast this
    rw [if_pos hlt2, hcast, e]
  · have hx2 : x < 0 := not_le.mp hx
    have e : x % (2 : Int) ^ 64 = x + (2 : Int) ^ 64 := by
      have h3 : (x + (2 : Int) ^ 64) % (2 : Int) ^ 64 = x + (2 : Int) ^ 64 :=
        Int.emod_eq_of_lt (by linarith) (by linarith)
      rw [← h3, Int.add_emod_self]
    have hge : ¬ (x % (2 : Int) ^ 64).toNat < 2 ^ (64 - 1) := by
      intro hc
      have : (((x % (2 : Int) ^ 64).toNat : Nat) : Int) < ((2 ^ 63 : Nat) : Int) := by
        exact_mod_cast hc
      rw [hcast, e] at this
      have h4 : ((2 ^ 63 : Nat) : Int) = (2 : Int) ^ 63 := by norm_num
      rw [h4] at this
      have h5 : (2 : Int) ^ 64 = 2 * (2 : Int) ^ 63 := by norm_num
      linarith
    rw [if_neg hge, hcast, e]
    ring

theorem to_unsigned_natCast (w : Nat) (n : Nat) (h : n < 2 ^ w) :
    to_unsigned w (n : Int) = n := by
  unfold to_unsigned
  have e : ((n : Int)) % (2 : Int) ^ w = (n : Int) :=
    Int.emod_eq_of_lt (Int.natCast_nonneg n) (by exact_mod_cast h)
  rw [e]
  exact Int.toNat_natCast n

theorem to_unsigned_lt (w : Nat) (x : Int) : to_unsigned w x < 2 ^ w := by
  unfold to_unsigned
  have hm : (0 : Int) ≤ x % (2 : Int) ^ w := Int.emod_nonneg _ (by positivity)
  have hlt : x % (2 : Int) ^ w < (2 : Int) ^ w := Int.emod_lt_of_pos _ (by positivity)
  have hcast : (((x % (2 : Int) ^ w).toNat : Nat) : Int) = x % (2 : Int) ^ w :=
    Int.toNat_of_nonneg hm
  have : (((x % (2 : Int) ^ w).toNat : Nat) : Int) < ((2 ^ w : Nat) : Int) := by
    rw [hcast]; exact_mod_cast hlt
  exact_mod_cast this

theorem to_unsigned_to_signed (x : Nat) : to_unsigned 64 (to_signed 64 (x % 2 ^ 64)) = x % 2 ^ 64 := by
  have hlt : x % 2 ^ 64 < 2 ^ 64 := Nat.mod_lt _ (by norm_num)
  unfold to_signed
  rw [Nat.mod_eq_of_lt hlt]
  split
  · exact to_unsigned_natCast 64 _ hlt
  · unfold to_unsigned
    rw [Int.sub_emod, Int.emod_self, sub_zero, Int.emod_emod_of_dvd _ (dvd_refl _)]
    have e : ((x % 2 ^ 64 : Nat) : Int) % (2 : Int) ^ 64 = ((x % 2 ^ 64 : Nat) : Int) :=
      Int.emod_eq_of_lt (Int.natCast_nonneg _) (by exact_mod_cast hlt)
    rw [e]
    exact Int.toNat_natCast _



theorem to_unsigned_nonneg_cast (x : Int) (h0 : 0 ≤ x) (h1 : x < (2 : Int) ^ 32) :
    ((to_unsigned 32 x % 2 ^ 32 : Nat) : Int) = x := by
  have hx : ((x.toNat : Nat) : Int) = x := Int.toNat_of_nonneg h0
  have hlt : x.toNat < 2 ^ 32 := by
    have : ((x.toNat : Nat) : Int) < ((2 ^ 32 : Nat) : Int) := by
      rw [hx]; exact_mod_cast h1
    exact_mod_cast this
  have e : to_unsigned 32 x = x.toNat := by
    unfold to_unsigned
    rw [Int.emod_eq_of_lt h0 h1]
  rw [e, Nat.mod_eq_of_lt hlt, hx]

theorem load_store_timespec (t : timespec) (h : timespec_valid t) :
    ({ tv_sec := to_signed 64 (le64_to_cpu (cpu_to_le64 t.tv_sec))
       tv_nsec := ((le32_to_cpu (cpu_to_le32 t.tv_nsec) : Nat) : Int) } : timespec) = t := by
  obtain ⟨h1, h2, h3, h4⟩ := h
  unfold le64_to_cpu cpu_to_le64 le32_to_cpu cpu_to_le32
  rw [to_signed_to_unsigned _ h1 h2, to_unsigned_nonneg_cast _ h3 (by linarith)]

theorem le32_cpu_natCast (n : Nat) (h : n < 2 ^ 32) :
    le32_to_cpu (cpu_to_le32 (n : Int)) = n := by
  unfold le32_to_cpu cpu_to_le32
  rw [to_unsigned_natCast 32 n h, Nat.mod_eq_of_lt h]

/-! ## Byte lemmas -/

theorem le_bytes_length (w v : Nat) : (le_bytes w v).length = w := by
  induction w generalizing v with
  | zero => rfl
  | succ w ih => simp [le_bytes, ih]

theorem le_value_le_bytes (w v : Nat) : le_value (le_bytes w v) = v % 256 ^ w := by
  induction w generalizing v with
  | zero => simp [le_bytes, le_value, Nat.mod_one]
  | succ w ih =>
    simp only [le_bytes, le_value, ih]
    rw [Nat.mod_mod, pow_succ', Nat.mod_mul]

theorem le_value_lt (l : List Nat) : le_value l < 256 ^ l.length := by
  induction l with
  | nil => simp [le_value]
  | cons b bs ih =>
    simp only [le_value, List.length_cons, pow_succ]
    have hb : b % 256 < 256 := Nat.mod_lt _ (by norm_num)
    nlinarith

theorem field_at_lt (mem : List Nat) (off w : Nat) : field_at mem off w < 256 ^ w := by
  unfold field_at
  have h1 := le_value_lt ((mem.drop off).take w)
  have h2 : ((mem.drop off).take w).length ≤ w := by
    rw [List.length_take]; exact Nat.min_le_left _ _
  exact lt_of_lt_of_le h1 (Nat.pow_le_pow_right (by norm_num) h2)

theorem field_at_here (w v : Nat) (rest : List Nat) :
    field_at (le_bytes w v ++ rest) 0 w = v % 256 ^ w := by
  unfold field_at
  rw [List.drop_zero, List.take_left' (le_bytes_length w v), le_value_le_bytes]

theorem field_at_skip (w0 v0 : Nat) (rest : List Nat) (k w : Nat) :
    field_at (le_bytes w0 v0 ++ rest) (w0 + k) w = field_at rest k w := by
  unfold field_at
  have h : (le_bytes w0 v0 ++ rest).drop (w0 + k) = rest.drop k := by
    have := @List.drop_append _ (le_bytes w0 v0) rest k
    rw [le_bytes_length] at this
    exact this
  rw [h]

theorem record_wf_at (mem : List Nat) : record_wf (scoutfs_inode_at mem) := by
  unfold record_wf scoutfs_inode_at
  have h8 : (256 : Nat) ^ 8 = 2 ^ 64 := by norm_num
  have h4 : (256 : Nat) ^ 4 = 2 ^ 32 := by norm_num
  refine ⟨?_, ?_, ?_, ?_, ?_, ?_, ?_, ?_, ?_, ?_, ?_, ?_, ?_⟩ <;>
    first
    | exact h8 ▸ field_at_lt mem _ 8
    | exact h4 ▸ field_at_lt mem _ 4

theorem record_wf_store (c0 : scoutfs_inode) (ci : scoutfs_inode_info) :
    record_wf (store_inode c0 ci) := by
  unfold record_wf store_inode cpu_to_le64 cpu_to_le32
  dsimp only
  exact ⟨to_unsigned_lt _ _, to_unsigned_lt _ _, to_unsigned_lt _ _, to_unsigned_lt _ _,
    to_unsigned_lt _ _, to_unsigned_lt _ _, to_unsigned_lt _ _, to_unsigned_lt _ _,
    to_unsigned_lt _ _, to_unsigned_lt _ _, to_unsigned_lt _ _, to_unsigned_lt _ _,
    to_unsigned_lt _ _⟩

theorem scoutfs_inode_at_bytes (r : scoutfs_inode) (rest : List Nat) (h : record_wf r) :
    scoutfs_inode_at (scoutfs_inode_bytes r ++ rest) = r := by
  obtain ⟨h1, h2, h3, h4, h5, h6, h7, h8, h9, h10, h11, h12, h13⟩ := h
  have e8 : (256 : Nat) ^ 8 = 2 ^ 64 := by norm_num
  have e4 : (256 : Nat) ^ 4 = 2 ^ 32 := by norm_num
  unfold scoutfs_inode_at scoutfs_inode_bytes
  simp only [List.append_assoc]
  rw [show (8 : Nat) = 8 + 0 from rfl, show (12 : Nat) = 8 + (4 + 0) from rfl,
    show (16 : Nat) = 8 + (4 + (4 + 0)) from rfl,
    show (20 : Nat) = 8 + (4 + (4 + (4 + 0))) from rfl,
    show (24 : Nat) = 8 + (4 + (4 + (4 + (4 + 0)))) from rfl,
    show (28 : Nat) = 8 + (4 + (4 + (4 + (4 + (4 + 0))))) from rfl,
    show (36 : Nat) = 8 + (4 + (4 + (4 + (4 + (4 + (8 + 0)))))) from rfl,
    show (40 : Nat) = 8 + (4 + (4 + (4 + (4 + (4 + (8 + (4 + 0))))))) from rfl,
    show (48 : Nat) = 8 + (4 + (4 + (4 + (4 + (4 + (8 + (4 + (8 + 0)))))))) from rfl,
    show (52 : Nat) = 8 + (4 + (4 + (4 + (4 + (4 + (8 + (4 + (8 + (4 + 0))))))))) from rfl,
    show (60 : Nat) = 8 + (4 + (4 + (4 + (4 + (4 + (8 + (4 + (8 + (4 + (8 + 0)))))))))) from rfl,
    show (64 : Nat) =
      8 + (4 + (4 + (4 + (4 + (4 + (8 + (4 + (8 + (4 + (8 + (4 + 0))))))))))) from rfl]
  simp only [field_at_skip, field_at_here, e8, e4, Nat.mod_eq_of_lt, h1, h2, h3, h4, h5, h6, h7,
    h8, h9, h10, h11, h12, h13]


/-! ## Codec claims -/

theorem load_inode_store_fields (dst : scoutfs_inode_info) (c0 : scoutfs_inode)
    (x : scoutfs_inode_info) (h : inode_valid x) :
    persisted_fields (load_inode dst (store_inode c0 x)) = persisted_fields x := by
  obtain ⟨h1, h2, h3, h4, h5, h6, h7, h8, h9, h10, h11⟩ := h
  have hm : x.inode.i_mode < 2 ^ 32 := lt_trans h6 (by norm_num)
  unfold persisted_fields load_inode store_inode
  dsimp only
  rw [load_store_timespec _ h8, load_store_timespec _ h9, load_store_timespec _ h10,
    le32_cpu_natCast _ h3, le32_cpu_natCast _ h4, le32_cpu_natCast _ h5,
    le32_cpu_natCast _ hm, le32_cpu_natCast _ h7, le32_cpu_natCast _ h11,
    Nat.mod_eq_of_lt h6]
  unfold le64_to_cpu cpu_to_le64
  rw [to_signed_to_unsigned _ h1 h2]

/-- Claim C1.  Round-trip codec law: for every valid in-memory inode `x` (fields within
their C types, timestamps with nanoseconds below 10^9), loading with `load_inode` the
record that `store_inode` wrote from `x` reproduces size, link count, uid, gid, mode, rdev,
the three timestamps and the salt of `x` exactly, whatever the loaded-into object `dst` and
the overwritten record `c0` held; and the same holds when the record passes through its
68 little-endian bytes in memory. -/
theorem load_inode_store_inode (dst : scoutfs_inode_info) (c0 : scoutfs_inode)
    (x : scoutfs_inode_info) (mem : List Nat) (h : inode_valid x) :
    persisted_fields (load_inode dst (store_inode c0 x)) = persisted_fields x ∧
    persisted_fields (load_inode dst
      (scoutfs_inode_at (write_scoutfs_inode mem (store_inode c0 x)))) = persisted_fields x := by
  refine ⟨load_inode_store_fields dst c0 x h, ?_⟩
  unfold write_scoutfs_inode
  rw [scoutfs_inode_at_bytes _ _ (record_wf_store c0 x)]
  exact load_inode_store_fields dst c0 x h

theorem load_inode_store_inode_witness :
    inode_valid sample_inode ∧
    persisted_fields (load_inode fresh_inode_info
      (store_inode (scoutfs_inode_at []) sample_inode)) = persisted_fields sample_inode :=
  ⟨by decide, (load_inode_store_inode fresh_inode_info (scoutfs_inode_at []) sample_inode []
    (by decide)).1⟩

theorem store_load_of_wf (dst : scoutfs_inode_info) (c0 r : scoutfs_inode) (h : record_wf r)
    (hmode : r.mode < 2 ^ 16) : store_inode c0 (load_inode dst r) = r := by
  obtain ⟨h1, h2, h3, h4, h5, h6, h7, h8, h9, h10, h11, h12, h13⟩ := h
  have e64 : ∀ v : Nat, v < 2 ^ 64 → cpu_to_le64 (to_signed 64 (le64_to_cpu v)) = v := by
    intro v hv
    unfold cpu_to_le64 le64_to_cpu
    rw [to_unsigned_to_signed, Nat.mod_eq_of_lt hv]
  have e32 : ∀ v : Nat, v < 2 ^ 32 → cpu_to_le32 ((le32_to_cpu v : Nat) : Int) = v := by
    intro v hv
    unfold cpu_to_le32 le32_to_cpu
    rw [Nat.mod_eq_of_lt hv, to_unsigned_natCast 32 v hv]
  have em : cpu_to_le32 ((le32_to_cpu r.mode % 2 ^ 16 : Nat) : Int) = r.mode := by
    unfold cpu_to_le32 le32_to_cpu
    rw [Nat.mod_eq_of_lt h5, Nat.mod_eq_of_lt hmode, to_unsigned_natCast 32 _ h5]
  unfold store_inode load_inode
  dsimp only
  rw [e64 _ h1, e64 _ h7, e64 _ h9, e64 _ h11, e32 _ h2, e32 _ h3, e32 _ h4, e32 _ h6,
    e32 _ h8, e32 _ h10, e32 _ h12, e32 _ h13, em]

/-- Claim C10.  Reverse round trip: for every record `r` read from memory (in particular
every full-length on-disk record), `load_inode` keeps only the low 16 bits of the
record's mode; when the mode is below 2^16, `store_inode` applied to the object produced
by `load_inode` writes back a record equal to `r` field for field; when the mode is 2^16
or more, the stored-back mode differs from the original. -/
theorem store_inode_load_inode (mem : List Nat) (dst : scoutfs_inode_info)
    (c0 : scoutfs_inode) :
    (load_inode dst (scoutfs_inode_at mem)).inode.i_mode = (scoutfs_inode_at mem).mode % 2 ^ 16 ∧
    ((scoutfs_inode_at mem).mode < 2 ^ 16 →
      store_inode c0 (load_inode dst (scoutfs_inode_at mem)) = scoutfs_inode_at mem) ∧
    (2 ^ 16 ≤ (scoutfs_inode_at mem).mode →
      (store_inode c0 (load_inode dst (scoutfs_inode_at mem))).mode ≠
        (scoutfs_inode_at mem).mode) := by
  have hwf := record_wf_at mem
  have h5 : (scoutfs_inode_at mem).mode < 2 ^ 32 := hwf.2.2.2.2.1
  refine ⟨?_, fun hmode => store_load_of_wf dst c0 _ hwf hmode, ?_⟩
  · unfold load_inode le32_to_cpu
    dsimp only
    rw [Nat.mod_eq_of_lt h5]
  · intro hge
    have hlt : (scoutfs_inode_at mem).mode % 2 ^ 16 < 2 ^ 16 := Nat.mod_lt _ (by norm_num)
    have e : (store_inode c0 (load_inode dst (scoutfs_inode_at mem))).mode =
        (scoutfs_inode_at mem).mode % 2 ^ 16 := by
      unfold store_inode load_inode cpu_to_le32 le32_to_cpu
      dsimp only
      rw [Nat.mod_eq_of_lt h5, to_unsigned_natCast 32 _ (lt_trans hlt (by norm_num))]
    rw [e]
    omega

theorem store_inode_load_inode_witness :
    (sample_record_bytes 0o100644).length = 68 ∧
    (scoutfs_inode_at (sample_record_bytes 0o100644)).mode = 0o100644 ∧
    store_inode (scoutfs_inode_at []) (load_inode fresh_inode_info
      (scoutfs_inode_at (sample_record_bytes 0o100644))) =
      scoutfs_inode_at (sample_record_bytes 0o100644) ∧
    (scoutfs_inode_at (sample_record_bytes 0x10000)).mode = 0x10000 ∧
    (store_inode (scoutfs_inode_at []) (load_inode fresh_inode_info
      (scoutfs_inode_at (sample_record_bytes 0x10000)))).mode ≠ 0x10000 :=
  ⟨by decide, by decide,
    (store_inode_load_inode (sample_record_bytes 0o100644) fresh_inode_info
      (scoutfs_inode_at [])).2.1 (by decide),
    by decide,
    fun h => (store_inode_load_inode (sample_record_bytes 0x10000) fresh_inode_info
      (scoutfs_inode_at [])).2.2 (by decide) (by rw [h]; decide)⟩


/-! ## Item store lemmas -/

theorem lookup_error_iff (items : List scoutfs_item) (key : scoutfs_key) (e : Int) :
    scoutfs_item_lookup items key = .error e ↔
      e = -ENOENT ∧ ∀ it ∈ items, it.key ≠ key := by
  unfold scoutfs_item_lookup
  cases hf : items.find? (fun it => it.key = key) with
  | none =>
    have hall := List.find?_eq_none.mp hf
    constructor
    · intro h
      refine ⟨by injection h with h; exact h.symm, fun it hit => ?_⟩
      simpa using hall it hit
    · rintro ⟨rfl, _⟩; rfl
  | some it =>
    have hmem := List.mem_of_find?_eq_some hf
    have hk : it.key = key := by simpa using List.find?_some hf
    constructor
    · intro h; cases h
    · rintro ⟨_, h⟩; exact absurd hk (h it hmem)

theorem lookup_item_write_val (items : List scoutfs_item) (key : scoutfs_key)
    (item : scoutfs_item) (val : List Nat) (h : scoutfs_item_lookup items key = .ok item) :
    scoutfs_item_lookup (item_write_val items key val) key = .ok { item with val := val } := by
  induction items with
  | nil => simp [scoutfs_item_lookup] at h
  | cons it rest ih =>
    unfold scoutfs_item_lookup at h ⊢
    by_cases hk : it.key = key
    · simp only [item_write_val, hk, if_true, List.find?_cons, decide_True] at h ⊢
      injection h with h
      subst h
      subst hk
      rfl
    · simp only [item_write_val, hk, if_false, List.find?_cons, decide_False] at h ⊢
      exact ih h

theorem lookup_create (items : List scoutfs_item) (key : scoutfs_key) (bytes : Nat)
    (r : scoutfs_item × List scoutfs_item)
    (h : scoutfs_item_create items key bytes = .ok r) :
    r.1 = { key := key, val_len := bytes, val := List.replicate bytes 0 } ∧
    r.2 = r.1 :: items ∧ scoutfs_item_lookup r.2 key = .ok r.1 ∧
    ∀ it ∈ items, it.key ≠ key := by
  unfold scoutfs_item_create at h
  cases hf : items.find? (fun it => it.key = key) with
  | some it => rw [hf] at h; cases h
  | none =>
    rw [hf] at h
    injection h with h
    subst h
    refine ⟨rfl, rfl, ?_, fun it hit => ?_⟩
    · simp [scoutfs_item_lookup]
    · simpa using List.find?_eq_none.mp hf it hit

theorem create_error_iff (items : List scoutfs_item) (key : scoutfs_key) (bytes : Nat)
    (e : Int) :
    scoutfs_item_create items key bytes = .error e ↔
      e = -EEXIST ∧ ∃ it ∈ items, it.key = key := by
  unfold scoutfs_item_create
  cases hf : items.find? (fun it => it.key = key) with
  | some it =>
    have hmem := List.mem_of_find?_eq_some hf
    have hk : it.key = key := by simpa using List.find?_some hf
    constructor
    · intro h
      exact ⟨by injection h with h; exact h.symm, it, hmem, hk⟩
    · rintro ⟨rfl, _⟩; rfl
  | none =>
    have hall := List.find?_eq_none.mp hf
    constructor
    · intro h; cases h
    · rintro ⟨_, it, hit, hk⟩
      exact absurd hk (by simpa using hall it hit)

/-! ## Persistence bridge -/

theorem read_after_update (s : State) (ci dst : scoutfs_inode_info) (item : scoutfs_item)
    (hrec : scoutfs_item_lookup s.items (scoutfs_set_key ci.ino SCOUTFS_INODE_KEY 0) = .ok item)
    (hino : dst.ino = ci.ino) :
    scoutfs_inode_update s ci =
      (0, { s with items := (item_write_val s.items (scoutfs_set_key ci.ino SCOUTFS_INODE_KEY 0)
              (write_scoutfs_inode item.val (store_inode (scoutfs_inode_at item.val) ci))) }) ∧
    scoutfs_item_lookup (scoutfs_inode_update s ci).2.items
        (scoutfs_set_key ci.ino SCOUTFS_INODE_KEY 0) =
      .ok { item with val :=
        write_scoutfs_inode item.val (store_inode (scoutfs_inode_at item.val) ci) } ∧
    scoutfs_read_locked_inode (scoutfs_inode_update s ci).2 dst =
      (0, load_inode dst (store_inode (scoutfs_inode_at item.val) ci)) := by
  have hu : scoutfs_inode_update s ci =
      (0, { s with items := (item_write_val s.items (scoutfs_set_key ci.ino SCOUTFS_INODE_KEY 0)
              (write_scoutfs_inode item.val (store_inode (scoutfs_inode_at item.val) ci))) }) := by
    unfold scoutfs_inode_update scoutfs_ino
    simp only [hrec]
  have hl := lookup_item_write_val s.items _ item
    (write_scoutfs_inode item.val (store_inode (scoutfs_inode_at item.val) ci)) hrec
  refine ⟨hu, ?_, ?_⟩
  · rw [hu]; exact hl
  · rw [hu]
    unfold scoutfs_read_locked_inode scoutfs_ino
    simp only [hino, hl]
    unfold write_scoutfs_inode
    rw [scoutfs_inode_at_bytes _ _ (record_wf_store _ _)]

/-- Claim C4.  Persist then reload: for every valid inode object `ci` whose backing record
exists in the item store (whatever the record held before), `scoutfs_inode_update`
succeeds, and `scoutfs_read_locked_inode` on any other object `dst` with the same inode
number then returns 0 and gives `dst` the size, link count, uid, gid, mode, rdev, atime,
mtime, ctime and salt that `ci` had at the update.  Both operations use the key
(number, `SCOUTFS_INODE_KEY`, 0): the item found under it afterwards is the old item with
the stored record written at its value, and the load reads exactly that item. -/
theorem inode_update_then_read (s : State) (ci dst : scoutfs_inode_info) (item : scoutfs_item)
    (hrec : scoutfs_item_lookup s.items (scoutfs_set_key ci.ino SCOUTFS_INODE_KEY 0) = .ok item)
    (hv : inode_valid ci) (hino : dst.ino = ci.ino) :
    (scoutfs_inode_update s ci).1 = 0 ∧
    (scoutfs_read_locked_inode (scoutfs_inode_update s ci).2 dst).1 = 0 ∧
    persisted_fields (scoutfs_read_locked_inode (scoutfs_inode_update s ci).2 dst).2 =
      persisted_fields ci ∧
    scoutfs_item_lookup (scoutfs_inode_update s ci).2.items
        (scoutfs_set_key ci.ino SCOUTFS_INODE_KEY 0) =
      .ok { item with val :=
        write_scoutfs_inode item.val (store_inode (scoutfs_inode_at item.val) ci) } ∧
    (scoutfs_read_locked_inode (scoutfs_inode_update s ci).2 dst).2 =
      load_inode dst (scoutfs_inode_at
        (write_scoutfs_inode item.val (store_inode (scoutfs_inode_at item.val) ci))) := by
  obtain ⟨hu, hl, hr⟩ := read_after_update s ci dst item hrec hino
  refine ⟨by rw [hu], by rw [hr], ?_, hl, ?_⟩
  · rw [hr]
    exact load_inode_store_fields dst _ ci hv
  · rw [hr]
    unfold write_scoutfs_inode
    rw [scoutfs_inode_at_bytes _ _ (record_wf_store _ _)]

theorem inode_update_then_read_witness :
    (scoutfs_inode_update stale_record_state sample_inode).1 = 0 ∧
    (scoutfs_read_locked_inode (scoutfs_inode_update stale_record_state sample_inode).2
      { fresh_inode_info with ino := 42 }).1 = 0 ∧
    (scoutfs_read_locked_inode (scoutfs_inode_update stale_record_state sample_inode).2
      { fresh_inode_info with ino := 42 }).2.inode.i_size = 4096 :=
  have h := inode_update_then_read stale_record_state sample_inode
    { fresh_inode_info with ino := 42 }
    { key := inode_key 42, val_len := 68, val := List.replicate 68 255 }
    (by decide) (by decide) (by decide)
  ⟨h.1, h.2.1, by
    have h3 := congrArg Prod.fst h.2.2.1
    exact h3⟩

/-- Counterexample to claim C5: the item under the key of inode 7 has a value of 3 bytes,
shorter than the 68 bytes of the record, yet `scoutfs_read_locked_inode` returns 0 and
`load_inode` has set the size from the three bytes. -/
theorem short_record_is_loaded :
    scoutfs_item_lookup short_record_state.items (inode_key 7) =
      .ok { key := inode_key 7, val_len := 3, val := [1, 2, 3] } ∧
    3 < sizeof_scoutfs_inode ∧
    (scoutfs_read_locked_inode short_record_state { fresh_inode_info with ino := 7 }).1 = 0 ∧
    (scoutfs_read_locked_inode short_record_state
      { fresh_inode_info with ino := 7 }).2.inode.i_size = 197121 ∧
    fresh_inode_info.inode.i_size = 0 := by
  decide

/-- Claim C5, amended.  The load path makes no length check: whenever the lookup finds an
item, whatever the length of its value, `scoutfs_read_locked_inode` returns 0 and the
inode holds what `load_inode` reads from the memory at the value; the call fails only
when the lookup fails, with the lookup's error, and then no field is populated. -/
theorem read_locked_inode_result (s : State) (ci : scoutfs_inode_info) :
    (∀ item, scoutfs_item_lookup s.items (scoutfs_set_key ci.ino SCOUTFS_INODE_KEY 0) = .ok item →
      scoutfs_read_locked_inode s ci = (0, load_inode ci (scoutfs_inode_at item.val))) ∧
    (∀ e, scoutfs_item_lookup s.items (scoutfs_set_key ci.ino SCOUTFS_INODE_KEY 0) = .error e →
      scoutfs_read_locked_inode s ci = (e, ci)) ∧
    ((scoutfs_read_locked_inode s ci).1 ≠ 0 →
      ∀ it ∈ s.items, it.key ≠ scoutfs_set_key ci.ino SCOUTFS_INODE_KEY 0) := by
  refine ⟨fun item h => ?_, fun e h => ?_, fun h it hit => ?_⟩
  · unfold scoutfs_read_locked_inode scoutfs_ino
    simp only [h]
  · unfold scoutfs_read_locked_inode scoutfs_ino
    simp only [h]
  · cases hl : scoutfs_item_lookup s.items (scoutfs_set_key ci.ino SCOUTFS_INODE_KEY 0) with
    | error e => exact ((lookup_error_iff _ _ _).mp hl).2 it hit
    | ok item =>
      exfalso
      apply h
      unfold scoutfs_read_locked_inode scoutfs_ino
      simp only [hl]

theorem read_locked_inode_result_witness :
    scoutfs_read_locked_inode short_record_state { fresh_inode_info with ino := 7 } =
      (0, load_inode { fresh_inode_info with ino := 7 } (scoutfs_inode_at [1, 2, 3])) ∧
    scoutfs_read_locked_inode short_record_state { fresh_inode_info with ino := 8 } =
      (-ENOENT, { fresh_inode_info with ino := 8 }) :=
  ⟨(read_locked_inode_result short_record_state { fresh_inode_info with ino := 7 }).1
      { key := inode_key 7, val_len := 3, val := [1, 2, 3] } (by decide),
   (read_locked_inode_result short_record_state { fresh_inode_info with ino := 8 }).2.1
      (-ENOENT) (by decide)⟩


/-! ## Objects and pointers -/

theorem update_first_map_fst (l : List (Nat × scoutfs_inode_info)) (a : Nat)
    (f : scoutfs_inode_info → scoutfs_inode_info) :
    (update_first l a f).map (fun p => p.1) = l.map (fun p => p.1) := by
  induction l with
  | nil => rfl
  | cons p rest ih =>
    unfold update_first
    by_cases h : p.1 = a
    · simp [h]
    · simp [h, ih]

theorem live_modify (s : State) (a : Nat) (f : scoutfs_inode_info → scoutfs_inode_info) :
    live (modify s a f) = live s :=
  update_first_map_fst s.inodes a f

theorem mem_update_first (l : List (Nat × scoutfs_inode_info)) (a : Nat)
    (f : scoutfs_inode_info → scoutfs_inode_info) (q : Nat × scoutfs_inode_info)
    (h : q ∈ update_first l a f) : q ∈ l ∨ ∃ p ∈ l, p.1 = a ∧ q = (p.1, f p.2) := by
  induction l with
  | nil => simp [update_first] at h
  | cons p rest ih =>
    unfold update_first at h
    by_cases hp : p.1 = a
    · rw [if_pos hp] at h
      rcases List.mem_cons.mp h with h | h
      · exact Or.inr ⟨p, List.mem_cons_self _ _, hp, h⟩
      · exact Or.inl (List.mem_cons_of_mem _ h)
    · rw [if_neg hp] at h
      rcases List.mem_cons.mp h with h | h
      · exact Or.inl (h ▸ List.mem_cons_self _ _)
      · rcases ih h with h | ⟨p1, hp1, ha, hq⟩
        · exact Or.inl (List.mem_cons_of_mem _ h)
        · exact Or.inr ⟨p1, List.mem_cons_of_mem _ hp1, ha, hq⟩

theorem find_update_first (l : List (Nat × scoutfs_inode_info)) (a : Nat)
    (f : scoutfs_inode_info → scoutfs_inode_info) (P : scoutfs_inode_info → Bool)
    (hP : ∀ ci, P (f ci) = P ci) :
    ((update_first l a f).find? (fun p => P p.2)).map (fun p => p.1) =
      (l.find? (fun p => P p.2)).map (fun p => p.1) := by
  induction l with
  | nil => rfl
  | cons p rest ih =>
    unfold update_first
    by_cases h : p.1 = a
    · rw [if_pos h]
      simp only [List.find?_cons, hP]
      cases P p.2 <;> rfl
    · rw [if_neg h]
      simp only [List.find?_cons]
      cases P p.2
      · exact ih
      · rfl

theorem find_inode_modify (s : State) (a : Nat) (f : scoutfs_inode_info → scoutfs_inode_info)
    (ino : Nat) (h1 : ∀ ci, (f ci).inode.i_hashed = ci.inode.i_hashed)
    (h2 : ∀ ci, (f ci).ino = ci.ino) :
    find_inode (modify s a f) scoutfs_iget_test ino = find_inode s scoutfs_iget_test ino := by
  unfold find_inode modify
  exact find_update_first s.inodes a f
    (fun ci => ci.inode.i_hashed && scoutfs_iget_test ci ino)
    (fun ci => by simp only [scoutfs_iget_test, h1, h2])

theorem hashed_inos_update_first (l : List (Nat × scoutfs_inode_info)) (a : Nat)
    (f : scoutfs_inode_info → scoutfs_inode_info)
    (h1 : ∀ ci, (f ci).inode.i_hashed = ci.inode.i_hashed) (h2 : ∀ ci, (f ci).ino = ci.ino) :
    ((update_first l a f).filter (fun p => p.2.inode.i_hashed)).map (fun p => p.2.ino) =
      (l.filter (fun p => p.2.inode.i_hashed)).map (fun p => p.2.ino) := by
  induction l with
  | nil => rfl
  | cons p rest ih =>
    unfold update_first
    by_cases h : p.1 = a
    · rw [if_pos h]
      simp only [List.filter_cons, h1]
      cases p.2.inode.i_hashed <;> simp [h2]
    · rw [if_neg h]
      simp only [List.filter_cons]
      cases p.2.inode.i_hashed <;> simp [ih]

theorem hashed_inos_modify (s : State) (a : Nat) (f : scoutfs_inode_info → scoutfs_inode_info)
    (h1 : ∀ ci, (f ci).inode.i_hashed = ci.inode.i_hashed) (h2 : ∀ ci, (f ci).ino = ci.ino) :
    hashed_inos (modify s a f) = hashed_inos s :=
  hashed_inos_update_first s.inodes a f h1 h2

theorem get_obj_head (s : State) (a : Nat) (x : scoutfs_inode_info)
    (rest : List (Nat × scoutfs_inode_info)) (h : s.inodes = (a, x) :: rest) :
    get_obj s a = x := by
  unfold get_obj
  rw [h]
  simp

theorem find_self_update_first (l : List (Nat × scoutfs_inode_info)) (a : Nat)
    (f : scoutfs_inode_info → scoutfs_inode_info) (h : ∃ p ∈ l, p.1 = a) :
    ((update_first l a f).find? (fun p => p.1 = a)).map (fun p => p.2) =
      (l.find? (fun p => p.1 = a)).map (fun p => f p.2) := by
  induction l with
  | nil => simp at h
  | cons p rest ih =>
    unfold update_first
    by_cases hp : p.1 = a
    · simp [hp]
    · rw [if_neg hp]
      simp only [List.find?_cons, hp, decide_False]
      apply ih
      obtain ⟨q, hq, hqa⟩ := h
      rcases List.mem_cons.mp hq with h1 | h1
      · exact absurd (h1 ▸ hqa) hp
      · exact ⟨q, h1, hqa⟩

theorem get_obj_modify (s : State) (a : Nat) (f : scoutfs_inode_info → scoutfs_inode_info)
    (h : ∃ p ∈ s.inodes, p.1 = a) : get_obj (modify s a f) a = f (get_obj s a) := by
  have h1 := find_self_update_first s.inodes a f h
  unfold get_obj modify
  dsimp only
  cases hf : s.inodes.find? (fun p => p.1 = a) with
  | none =>
    obtain ⟨p, hp, hpa⟩ := h
    have := List.find?_eq_none.mp hf p hp
    simp [hpa] at this
  | some q =>
    rw [hf] at h1
    cases hg : (update_first s.inodes a f).find? (fun p => p.1 = a) with
    | none => rw [hg] at h1; simp at h1
    | some r =>
      rw [hg] at h1
      simpa using h1

theorem get_obj_mem (s : State) (a : Nat) (h : ∃ p ∈ s.inodes, p.1 = a) :
    (a, get_obj s a) ∈ s.inodes := by
  unfold get_obj
  cases hf : s.inodes.find? (fun p => p.1 = a) with
  | none =>
    obtain ⟨p, hp, hpa⟩ := h
    have := List.find?_eq_none.mp hf p hp
    simp [hpa] at this
  | some q =>
    have hq : q.1 = a := by simpa using List.find?_some hf
    have hm := List.mem_of_find?_eq_some hf
    dsimp only
    rw [← hq]
    exact hm

theorem find_inode_some_live (s : State) (ino a : Nat)
    (h : find_inode s scoutfs_iget_test ino = some a) : ∃ p ∈ s.inodes, p.1 = a := by
  unfold find_inode at h
  cases hf : s.inodes.find? (fun p => p.2.inode.i_hashed && scoutfs_iget_test p.2 ino) with
  | none => rw [hf] at h; cases h
  | some q =>
    rw [hf] at h
    exact ⟨q, List.mem_of_find?_eq_some hf, by simpa using h⟩

theorem find_inode_none_iff (s : State) (ino : Nat) :
    find_inode s scoutfs_iget_test ino = none ↔ ino ∉ hashed_inos s := by
  unfold find_inode hashed_inos scoutfs_iget_test
  rw [Option.map_eq_none', List.find?_eq_none]
  simp only [List.mem_map, List.mem_filter, not_exists, not_and]
  constructor
  · intro h p hp hino
    have := h p hp.1
    simp [hp.2, hino] at this
  · intro h p hp
    simp only [Bool.and_eq_true, decide_eq_true_eq, not_and]
    intro hh hino
    exact h p ⟨hp, hh⟩ hino

/-! ## Operations that keep the VFS bookkeeping -/

theorem set_inode_ops_keeps (i : inode) :
    (set_inode_ops i).i_count = i.i_count ∧ (set_inode_ops i).I_NEW = i.I_NEW ∧
    (set_inode_ops i).i_hashed = i.i_hashed ∧ (set_inode_ops i).i_nlink = i.i_nlink ∧
    (set_inode_ops i).i_size = i.i_size ∧ (set_inode_ops i).i_uid = i.i_uid ∧
    (set_inode_ops i).i_gid = i.i_gid ∧ (set_inode_ops i).i_mode = i.i_mode ∧
    (set_inode_ops i).i_rdev = i.i_rdev ∧ (set_inode_ops i).i_atime = i.i_atime ∧
    (set_inode_ops i).i_mtime = i.i_mtime ∧ (set_inode_ops i).i_ctime = i.i_ctime ∧
    (set_inode_ops i).i_ino = i.i_ino := by
  unfold set_inode_ops init_special_inode
  split_ifs <;> exact ⟨rfl, rfl, rfl, rfl, rfl, rfl, rfl, rfl, rfl, rfl, rfl, rfl, rfl⟩

theorem inode_init_owner_keeps (i : inode) (dir : Option inode) (mode : Nat) (e : task_env) :
    (inode_init_owner i dir mode e).i_count = i.i_count ∧
    (inode_init_owner i dir mode e).I_NEW = i.I_NEW ∧
    (inode_init_owner i dir mode e).i_hashed = i.i_hashed ∧
    (inode_init_owner i dir mode e).i_nlink = i.i_nlink ∧
    (inode_init_owner i dir mode e).i_size = i.i_size := by
  unfold inode_init_owner
  cases dir with
  | none => exact ⟨rfl, rfl, rfl, rfl, rfl⟩
  | some d =>
    dsimp only
    split_ifs <;> exact ⟨rfl, rfl, rfl, rfl, rfl⟩

theorem new_inode_setup_keeps (ci : scoutfs_inode_info) (ino : Nat) (dir : Option inode)
    (mode rdev : Nat) (e : task_env) :
    (new_inode_setup ci ino dir mode rdev e).ino = ino ∧
    (new_inode_setup ci ino dir mode rdev e).inode.i_count = ci.inode.i_count ∧
    (new_inode_setup ci ino dir mode rdev e).inode.I_NEW = ci.inode.I_NEW ∧
    (new_inode_setup ci ino dir mode rdev e).inode.i_hashed = ci.inode.i_hashed ∧
    (new_inode_setup ci ino dir mode rdev e).inode.i_nlink = ci.inode.i_nlink ∧
    (new_inode_setup ci ino dir mode rdev e).inode.i_size = ci.inode.i_size := by
  unfold new_inode_setup
  dsimp only
  obtain ⟨h1, h2, h3, h4, h5, -⟩ := set_inode_ops_keeps
    { inode_init_owner { ci.inode with i_ino := ino } dir mode e with
      i_blocks := 0, i_bytes := 0, i_mtime := e.now, i_atime := e.now, i_ctime := e.now
      i_rdev := rdev }
  obtain ⟨g1, g2, g3, g4, g5⟩ := inode_init_owner_keeps { ci.inode with i_ino := ino } dir mode e
  exact ⟨rfl, h1.trans g1, h2.trans g2, h3.trans g3, h4.trans g4, h5.trans g5⟩

/-! ## What each entry point does to the state -/

theorem kmem_cache_alloc_some (c : kmem_cache) (a : Nat) (c1 : kmem_cache)
    (h : kmem_cache_alloc c = some (a, c1)) :
    (c.free = a :: c1.free ∧ c1.nr_objs = c.nr_objs) ∨
    (c.free = [] ∧ c1.free = [] ∧ a = c.nr_objs ∧ c1.nr_objs = c.nr_objs + 1) := by
  unfold kmem_cache_alloc at h
  cases hf : c.free with
  | nil =>
    rw [hf] at h
    dsimp only at h
    split_ifs at h
    injection h with h
    injection h with h1 h2
    subst h1 h2
    exact Or.inr ⟨rfl, rfl, rfl, rfl⟩
  | cons b rest =>
    rw [hf] at h
    dsimp only at h
    injection h with h
    injection h with h1 h2
    subst h1 h2
    exact Or.inl ⟨rfl, rfl⟩

theorem scoutfs_alloc_inode_cases (s : State) :
    scoutfs_alloc_inode s = (none, s) ∨
    ∃ c a c1, s.scoutfs_inode_cachep = some c ∧ kmem_cache_alloc c = some (a, c1) ∧
      scoutfs_alloc_inode s = (some a, { s with scoutfs_inode_cachep := some c1 }) := by
  cases hc : s.scoutfs_inode_cachep with
  | none => left; simp [scoutfs_alloc_inode, hc]
  | some c =>
    cases ha : kmem_cache_alloc c with
    | none => left; simp [scoutfs_alloc_inode, hc, ha]
    | some r =>
      right
      exact ⟨c, r.1, r.2, rfl, ha, by simp [scoutfs_alloc_inode, hc, ha]⟩

theorem alloc_inode_cases (s : State) :
    alloc_inode s = (none, s) ∨
    ∃ c a c1, s.scoutfs_inode_cachep = some c ∧ kmem_cache_alloc c = some (a, c1) ∧
      alloc_inode s = (some a, { s with scoutfs_inode_cachep := some c1
                                        inodes := (a, fresh_inode_info) :: s.inodes }) := by
  unfold alloc_inode
  rcases scoutfs_alloc_inode_cases s with h | ⟨c, a, c1, hc, ha, h⟩
  · rw [h]; exact Or.inl rfl
  · rw [h]; exact Or.inr ⟨c, a, c1, hc, ha, rfl⟩

theorem new_inode_cases (s : State) :
    new_inode s = (none, s) ∨
    ∃ c a c1, s.scoutfs_inode_cachep = some c ∧ kmem_cache_alloc c = some (a, c1) ∧
      new_inode s = (some a, { s with scoutfs_inode_cachep := some c1
                                      inodes := (a, fresh_inode_info) :: s.inodes }) := by
  unfold new_inode
  rcases alloc_inode_cases s with h | ⟨c, a, c1, hc, ha, h⟩
  · rw [h]; exact Or.inl rfl
  · rw [h]
    refine Or.inr ⟨c, a, c1, hc, ha, ?_⟩
    simp [modify, update_first, fresh_inode_info, inode_init_always]

theorem scoutfs_new_inode_cases (s : State) (dir : Option inode) (mode rdev : Nat)
    (e : task_env) :
    (new_inode s = (none, s) ∧ scoutfs_new_inode s dir mode rdev e = (.error (-ENOMEM), s)) ∨
    ∃ c a c1, s.scoutfs_inode_cachep = some c ∧ kmem_cache_alloc c = some (a, c1) ∧
      new_inode s = (some a, { s with scoutfs_inode_cachep := some c1
                                      inodes := (a, fresh_inode_info) :: s.inodes }) ∧
      ((∃ err, scoutfs_item_create s.items
            (scoutfs_set_key (atomic64_inc_return s.next_ino) SCOUTFS_INODE_KEY 0)
            sizeof_scoutfs_inode = .error err ∧
          scoutfs_new_inode s dir mode rdev e =
            (.error err, { s with scoutfs_inode_cachep := some c1
                                  rcu := s.rcu ++ [a]
                                  next_ino := atomic64_inc_return s.next_ino
                                  inodes := s.inodes.filter (fun p => p.1 ≠ a) })) ∨
       ((∀ it ∈ s.items,
            it.key ≠ scoutfs_set_key (atomic64_inc_return s.next_ino) SCOUTFS_INODE_KEY 0) ∧
          scoutfs_new_inode s dir mode rdev e =
            (.ok a, { scoutfs_inode_cachep := some c1
                      rcu := s.rcu
                      next_ino := atomic64_inc_return s.next_ino
                      items :=
                        { key := scoutfs_set_key (atomic64_inc_return s.next_ino)
                            SCOUTFS_INODE_KEY 0
                          val_len := sizeof_scoutfs_inode
                          val := List.replicate sizeof_scoutfs_inode 0 } :: s.items
                      inodes :=
                        (a, new_inode_setup fresh_inode_info (atomic64_inc_return s.next_ino)
                          dir mode rdev e) :: s.inodes }))) := by
  rcases new_inode_cases s with h | ⟨c, a, c1, hc, ha, h⟩
  · left
    refine ⟨h, ?_⟩
    unfold scoutfs_new_inode
    rw [h]
  · right
    refine ⟨c, a, c1, hc, ha, h, ?_⟩
    obtain ⟨k1, k2, k3, k4, k5, k6⟩ := new_inode_setup_keeps fresh_inode_info
      (atomic64_inc_return s.next_ino) dir mode rdev e
    cases hcr : scoutfs_item_create s.items
        (scoutfs_set_key (atomic64_inc_return s.next_ino) SCOUTFS_INODE_KEY 0)
        sizeof_scoutfs_inode with
    | error err =>
      left
      refine ⟨err, rfl, ?_⟩
      unfold scoutfs_new_inode
      rw [h]
      simp only [modify, update_first, if_true, get_obj, List.find?_cons, decide_True,
        scoutfs_ino, k1, hcr]
      have k2a : (new_inode_setup fresh_inode_info (atomic64_inc_return s.next_ino) dir mode
          rdev e).inode.i_count = 1 := k2
      have k4a : (new_inode_setup fresh_inode_info (atomic64_inc_return s.next_ino) dir mode
          rdev e).inode.i_hashed = false := k4
      unfold iput evict scoutfs_destroy_inode call_rcu
      simp [get_obj, k2a, k4a]
    | ok r =>
      right
      obtain ⟨r1, r2, -, r4⟩ := lookup_create _ _ _ _ hcr
      refine ⟨r4, ?_⟩
      unfold scoutfs_new_inode
      rw [h]
      simp only [modify, update_first, if_true, get_obj, List.find?_cons, decide_True,
        scoutfs_ino, k1, hcr, r2, r1]


theorem scoutfs_iget_present (s : State) (ino a : Nat)
    (hf : find_inode s scoutfs_iget_test ino = some a)
    (hN : (get_obj s a).inode.I_NEW = false) :
    scoutfs_iget s ino =
      (.ok a, modify s a (fun ci =>
        { ci with inode := { ci.inode with i_count := ci.inode.i_count + 1 } })) := by
  have hl := find_inode_some_live s ino a hf
  unfold scoutfs_iget iget5_locked
  rw [hf]
  dsimp only
  rw [get_obj_modify s a _ hl]
  simp [hN]

theorem scoutfs_iget_absent (s : State) (ino : Nat)
    (hf : find_inode s scoutfs_iget_test ino = none) :
    (alloc_inode s = (none, s) ∧ scoutfs_iget s ino = (.error (-ENOMEM), s)) ∨
    ∃ c a c1, s.scoutfs_inode_cachep = some c ∧ kmem_cache_alloc c = some (a, c1) ∧
      alloc_inode s = (some a, { s with scoutfs_inode_cachep := some c1
                                        inodes := (a, fresh_inode_info) :: s.inodes }) ∧
      ((∃ e, scoutfs_item_lookup s.items (scoutfs_set_key ino SCOUTFS_INODE_KEY 0) = .error e ∧
          scoutfs_iget s ino =
            (.error e, { s with scoutfs_inode_cachep := some c1
                                rcu := s.rcu ++ [a]
                                inodes := s.inodes.filter (fun p => p.1 ≠ a) })) ∨
       (∃ item, scoutfs_item_lookup s.items (scoutfs_set_key ino SCOUTFS_INODE_KEY 0) = .ok item ∧
          scoutfs_iget s ino =
            (.ok a, { s with scoutfs_inode_cachep := some c1
                             inodes := (a, iget_loaded_obj ino item) :: s.inodes }))) := by
  rcases alloc_inode_cases s with h | ⟨c, a, c1, hc, ha, h⟩
  · left
    refine ⟨h, ?_⟩
    unfold scoutfs_iget iget5_locked
    rw [hf, h]
  · right
    refine ⟨c, a, c1, hc, ha, h, ?_⟩
    cases hl : scoutfs_item_lookup s.items (scoutfs_set_key ino SCOUTFS_INODE_KEY 0) with
    | error e =>
      left
      refine ⟨e, rfl, ?_⟩
      have he : e ≠ 0 := by
        rw [((lookup_error_iff _ _ _).mp hl).1]
        decide
      unfold scoutfs_iget iget5_locked
      rw [hf, h]
      simp only [modify, update_first, if_true, get_obj, List.find?_cons, decide_True,
        scoutfs_read_locked_inode, scoutfs_ino, scoutfs_iget_set, hl, he, ne_eq,
        not_false_eq_true]
      unfold iget_failed iput unlock_new_inode make_bad_inode evict scoutfs_destroy_inode
        call_rcu
      simp [get_obj, modify, update_first, fresh_inode_info, inode_init_always]
    | ok item =>
      right
      refine ⟨item, rfl, ?_⟩
      unfold scoutfs_iget iget5_locked
      rw [hf, h]
      simp only [modify, update_first, if_true, get_obj, List.find?_cons, decide_True,
        scoutfs_read_locked_inode, scoutfs_ino, scoutfs_iget_set, hl, ne_eq,
        not_true_eq_false, if_false, unlock_new_inode, iget_loaded_obj, iget_new_obj]


/-! ## The invariant of the reachable states -/

theorem alloc_pool (c : kmem_cache) (a : Nat) (c1 : kmem_cache) (rest : List Nat)
    (ha : kmem_cache_alloc c = some (a, c1)) (hnd : (c.free ++ rest).Nodup)
    (hb : ∀ x ∈ c.free ++ rest, x < c.nr_objs) :
    (a :: (c1.free ++ rest)).Nodup ∧ ∀ x ∈ a :: (c1.free ++ rest), x < c1.nr_objs := by
  rcases kmem_cache_alloc_some c a c1 ha with ⟨h1, h2⟩ | ⟨h1, h2, h3, h4⟩
  · rw [h1] at hnd hb
    rw [h2]
    exact ⟨hnd, hb⟩
  · rw [h1] at hnd hb
    rw [h2, h4]
    refine ⟨List.nodup_cons.mpr ⟨fun hm => ?_, hnd⟩, fun x hx => ?_⟩
    · have := hb a hm
      omega
    · rcases List.mem_cons.mp hx with hx | hx
      · omega
      · have := hb x hx
        omega

theorem filter_ne_of_not_mem (l : List (Nat × scoutfs_inode_info)) (a : Nat)
    (h : a ∉ l.map (fun p => p.1)) : l.filter (fun p => p.1 ≠ a) = l := by
  apply List.filter_eq_self.mpr
  intro p hp
  have : p.1 ≠ a := fun he => h (List.mem_map.mpr ⟨p, hp, he⟩)
  simpa using this

theorem live_filter (l : List (Nat × scoutfs_inode_info)) (a : Nat) :
    (l.filter (fun p => p.1 ≠ a)).map (fun p => p.1) =
      (l.map (fun p => p.1)).filter (fun x => x ≠ a) := by
  rw [List.filter_map]
  rfl

theorem perm_filter_ne (l : List Nat) (a : Nat) (hnd : l.Nodup) (ha : a ∈ l) :
    List.Perm l (a :: l.filter (fun x => x ≠ a)) := by
  have h1 : l.erase a = l.filter (fun x => x ≠ a) := by
    rw [hnd.erase_eq_filter]
    apply List.filter_congr
    intro x _
    by_cases hx : x = a <;> simp [hx]
  rw [← h1]
  exact List.perm_cons_erase ha

theorem hashed_inos_filter_nodup (l : List (Nat × scoutfs_inode_info)) (a : Nat)
    (h : ((l.filter (fun p => p.2.inode.i_hashed)).map (fun p => p.2.ino)).Nodup) :
    (((l.filter (fun p => p.1 ≠ a)).filter (fun p => p.2.inode.i_hashed)).map
      (fun p => p.2.ino)).Nodup :=
  List.Nodup.sublist
    (List.Sublist.map _ (List.Sublist.filter _ (List.filter_sublist l))) h

theorem Inv_of_eq (s s1 : State) (h : Inv s)
    (h1 : s1.scoutfs_inode_cachep = s.scoutfs_inode_cachep) (h2 : s1.rcu = s.rcu)
    (h3 : s1.inodes = s.inodes) : Inv s1 := by
  unfold Inv hashed_inos live at h ⊢
  rw [h1, h2, h3]
  exact h

theorem Inv_alloc_cons (s s1 : State) (c : kmem_cache) (a : Nat) (c1 : kmem_cache)
    (x : scoutfs_inode_info) (hInv : Inv s) (hc : s.scoutfs_inode_cachep = some c)
    (ha : kmem_cache_alloc c = some (a, c1)) (hx1 : x.inode.I_NEW = false)
    (hx2 : x.inode.i_hashed = true → x.ino ∉ hashed_inos s)
    (h1 : s1.scoutfs_inode_cachep = some c1) (h2 : s1.rcu = s.rcu)
    (h3 : s1.inodes = (a, x) :: s.inodes) : Inv s1 := by
  obtain ⟨⟨c0, hc0, hnd, hb⟩, hH, hN⟩ := hInv
  rw [hc] at hc0
  injection hc0 with hc0
  subst hc0
  obtain ⟨g1, g2⟩ := alloc_pool c a c1 (s.rcu ++ live s) ha hnd hb
  have hperm : List.Perm (c1.free ++ (s1.rcu ++ live s1)) (a :: (c1.free ++ (s.rcu ++ live s))) := by
    have e : live s1 = a :: live s := by unfold live; rw [h3]; rfl
    rw [h2, e]
    exact (List.Perm.append_left c1.free List.perm_middle).trans List.perm_middle
  refine ⟨⟨c1, h1, hperm.nodup_iff.mpr g1, fun y hy => g2 y (hperm.mem_iff.mp hy)⟩, ?_, ?_⟩
  · unfold hashed_inos at hH hx2 ⊢
    rw [h3, List.filter_cons]
    cases hh : x.inode.i_hashed with
    | false => simpa using hH
    | true =>
      simp only [if_true, List.map_cons]
      exact List.nodup_cons.mpr ⟨hx2 hh, hH⟩
  · intro p hp
    rw [h3] at hp
    rcases List.mem_cons.mp hp with hp | hp
    · rw [hp]; exact hx1
    · exact hN p hp

theorem Inv_alloc_evict (s s1 : State) (c : kmem_cache) (a : Nat) (c1 : kmem_cache)
    (hInv : Inv s) (hc : s.scoutfs_inode_cachep = some c)
    (ha : kmem_cache_alloc c = some (a, c1))
    (h1 : s1.scoutfs_inode_cachep = some c1) (h2 : s1.rcu = s.rcu ++ [a])
    (h3 : s1.inodes = s.inodes.filter (fun p => p.1 ≠ a)) : Inv s1 := by
  obtain ⟨⟨c0, hc0, hnd, hb⟩, hH, hN⟩ := hInv
  rw [hc] at hc0
  injection hc0 with hc0
  subst hc0
  obtain ⟨g1, g2⟩ := alloc_pool c a c1 (s.rcu ++ live s) ha hnd hb
  have hal : a ∉ live s := by
    intro hm
    have := (List.nodup_cons.mp g1).1
    exact this (List.mem_append_right _ (List.mem_append_right _ hm))
  have h3a : s1.inodes = s.inodes := by rw [h3]; exact filter_ne_of_not_mem _ _ hal
  have hperm : List.Perm (c1.free ++ (s1.rcu ++ live s1)) (a :: (c1.free ++ (s.rcu ++ live s))) := by
    have e : live s1 = live s := by unfold live; rw [h3a]
    rw [h2, e, List.append_assoc]
    exact (List.Perm.append_left c1.free List.perm_middle).trans List.perm_middle
  refine ⟨⟨c1, h1, hperm.nodup_iff.mpr g1, fun y hy => g2 y (hperm.mem_iff.mp hy)⟩, ?_, ?_⟩
  · unfold hashed_inos; rw [h3a]; exact hH
  · rw [h3a]; exact hN

theorem Inv_modify (s : State) (a : Nat) (f : scoutfs_inode_info → scoutfs_inode_info)
    (hInv : Inv s) (h1 : ∀ ci, (f ci).inode.i_hashed = ci.inode.i_hashed)
    (h2 : ∀ ci, (f ci).ino = ci.ino) (h3 : ∀ ci, (f ci).inode.I_NEW = ci.inode.I_NEW) :
    Inv (modify s a f) := by
  obtain ⟨⟨c0, hc0, hnd, hb⟩, hH, hN⟩ := hInv
  refine ⟨⟨c0, hc0, ?_, ?_⟩, ?_, ?_⟩
  · rw [live_modify]; exact hnd
  · rw [live_modify]; exact hb
  · rw [hashed_inos_modify s a f h1 h2]; exact hH
  · intro q hq
    rcases mem_update_first s.inodes a f q hq with hq | ⟨p, hp, -, hq⟩
    · exact hN q hq
    · rw [hq]
      exact (h3 p.2).trans (hN p hp)

theorem Inv_evict (s : State) (a : Nat) (hInv : Inv s) (hl : ∃ p ∈ s.inodes, p.1 = a) :
    Inv (evict s a) := by
  obtain ⟨⟨c0, hc0, hnd, hb⟩, hH, hN⟩ := hInv
  have hlive : a ∈ live s := by
    obtain ⟨p, hp, hpa⟩ := hl
    exact List.mem_map.mpr ⟨p, hp, hpa⟩
  have hlnd : (live s).Nodup := (List.nodup_append.mp (List.nodup_append.mp hnd).2.1).2.1
  have hperm : List.Perm (c0.free ++ ((s.rcu ++ [a]) ++ live (evict s a)))
      (c0.free ++ (s.rcu ++ live s)) := by
    have e : live (evict s a) = (live s).filter (fun x => x ≠ a) := live_filter s.inodes a
    rw [e, List.append_assoc]
    exact List.Perm.append_left _ (List.Perm.append_left _ (perm_filter_ne _ a hlnd hlive).symm)
  refine ⟨⟨c0, hc0, hperm.nodup_iff.mpr hnd, fun y hy => hb y (hperm.mem_iff.mp hy)⟩, ?_, ?_⟩
  · exact hashed_inos_filter_nodup s.inodes a hH
  · intro p hp
    exact hN p (List.mem_of_mem_filter hp)

theorem Inv_grace_period (s : State) (hInv : Inv s) : Inv (rcu_grace_period s) := by
  obtain ⟨⟨c0, hc0, hnd, hb⟩, hH, hN⟩ := hInv
  cases hr : s.rcu with
  | nil =>
    have e : rcu_grace_period s = s := by simp [rcu_grace_period, hr]
    rw [e]
    exact ⟨⟨c0, hc0, hnd, hb⟩, hH, hN⟩
  | cons a rest =>
    have e : rcu_grace_period s =
        { s with scoutfs_inode_cachep := some (kmem_cache_free c0 a), rcu := rest } := by
      simp [rcu_grace_period, hr, scoutfs_i_callback, hc0]
    rw [e]
    rw [hr] at hnd hb
    have hperm : List.Perm ((a :: c0.free) ++ (rest ++ live s))
        (c0.free ++ (a :: rest ++ live s)) := List.perm_middle.symm
    exact ⟨⟨kmem_cache_free c0 a, rfl, hperm.nodup_iff.mpr hnd,
      fun y hy => hb y (hperm.mem_iff.mp hy)⟩, hH, hN⟩

theorem Inv_mounted (limit next_ino : Nat) (items : List scoutfs_item) :
    Inv (mounted limit next_ino items) := by
  refine ⟨⟨_, rfl, ?_, ?_⟩, ?_, ?_⟩ <;> simp [mounted, scoutfs_inode_init, live, hashed_inos]


theorem Inv_iput (s : State) (a : Nat) (h : Inv s) (hl : ∃ p ∈ s.inodes, p.1 = a) :
    Inv (iput s a) := by
  unfold iput
  dsimp only
  split_ifs
  · exact Inv_evict s a h hl
  · exact Inv_modify s a _ h (fun _ => rfl) (fun _ => rfl) (fun _ => rfl)
  · exact Inv_modify s a _ h (fun _ => rfl) (fun _ => rfl) (fun _ => rfl)

theorem Inv_new_inode (s : State) (dir : Option inode) (mode rdev : Nat) (e : task_env)
    (h : Inv s) : Inv (scoutfs_new_inode s dir mode rdev e).2 := by
  rcases scoutfs_new_inode_cases s dir mode rdev e with
    ⟨-, hr⟩ | ⟨c, a, c1, hc, ha, -, ⟨err, -, hr⟩ | ⟨-, hr⟩⟩
  · rw [hr]; exact h
  · rw [hr]
    exact Inv_alloc_evict s _ c a c1 h hc ha rfl rfl rfl
  · rw [hr]
    obtain ⟨-, -, k3, k4, -, -⟩ := new_inode_setup_keeps fresh_inode_info
      (atomic64_inc_return s.next_ino) dir mode rdev e
    refine Inv_alloc_cons s _ c a c1 _ h hc ha k3 (fun hh => ?_) rfl rfl rfl
    rw [k4] at hh
    cases hh

theorem Inv_iget (s : State) (ino : Nat) (h : Inv s) : Inv (scoutfs_iget s ino).2 := by
  cases hf : find_inode s scoutfs_iget_test ino with
  | some a =>
    have hl := find_inode_some_live s ino a hf
    have hN : (get_obj s a).inode.I_NEW = false := h.2.2 _ (get_obj_mem s a hl)
    rw [scoutfs_iget_present s ino a hf hN]
    exact Inv_modify s a _ h (fun _ => rfl) (fun _ => rfl) (fun _ => rfl)
  | none =>
    rcases scoutfs_iget_absent s ino hf with
      ⟨-, hr⟩ | ⟨c, a, c1, hc, ha, -, ⟨err, -, hr⟩ | ⟨item, -, hr⟩⟩
    · rw [hr]; exact h
    · rw [hr]
      exact Inv_alloc_evict s _ c a c1 h hc ha rfl rfl rfl
    · rw [hr]
      exact Inv_alloc_cons s _ c a c1 (iget_loaded_obj ino item) h hc ha rfl
        (fun _ => (find_inode_none_iff s ino).mp hf) rfl rfl rfl

theorem Inv_update (s : State) (ci : scoutfs_inode_info) (h : Inv s) :
    Inv (scoutfs_inode_update s ci).2 := by
  unfold scoutfs_inode_update
  dsimp only
  cases scoutfs_item_lookup s.items (scoutfs_set_key (scoutfs_ino ci) SCOUTFS_INODE_KEY 0) with
  | error e => exact h
  | ok item => exact Inv_of_eq s _ h rfl rfl rfl

theorem Inv_step (s : State) (op : Op) (h : Inv s) : Inv (step s op) := by
  cases op with
  | new_inode dir mode rdev e => exact Inv_new_inode s dir mode rdev e h
  | iget ino => exact Inv_iget s ino h
  | iput a =>
    simp only [step]
    split_ifs with hg
    · exact Inv_iput s a h hg.1
    · exact h
  | update a =>
    simp only [step]
    split_ifs with hg
    · exact Inv_update s _ h
    · exact h
  | grace_period => exact Inv_grace_period s h

theorem Inv_run (s : State) (ops : List Op) (h : Inv s) : Inv (run s ops) := by
  induction ops generalizing s with
  | nil => exact h
  | cons op rest ih => exact ih (step s op) (Inv_step s op h)


theorem alloc_not_live (s : State) (c : kmem_cache) (a : Nat) (c1 : kmem_cache) (hInv : Inv s)
    (hc : s.scoutfs_inode_cachep = some c) (ha : kmem_cache_alloc c = some (a, c1)) :
    a ∉ s.rcu ∧ a ∉ live s ∧ ∀ x ∈ c1.free, x ∈ c.free := by
  obtain ⟨⟨c0, hc0, hnd, hb⟩, -, -⟩ := hInv
  rw [hc] at hc0
  injection hc0 with hc0
  subst hc0
  obtain ⟨g1, -⟩ := alloc_pool c a c1 (s.rcu ++ live s) ha hnd hb
  have hn := (List.nodup_cons.mp g1).1
  refine ⟨fun hm => hn (List.mem_append_right _ (List.mem_append_left _ hm)),
    fun hm => hn (List.mem_append_right _ (List.mem_append_right _ hm)), fun x hx => ?_⟩
  rcases kmem_cache_alloc_some c a c1 ha with ⟨h1, -⟩ | ⟨-, h2, -, -⟩
  · rw [h1]; exact List.mem_cons_of_mem _ hx
  · rw [h2] at hx; cases hx

theorem hashed_inos_new_inode (s : State) (dir : Option inode) (mode rdev : Nat)
    (e : task_env) (h : Inv s) :
    hashed_inos (scoutfs_new_inode s dir mode rdev e).2 = hashed_inos s := by
  rcases scoutfs_new_inode_cases s dir mode rdev e with
    ⟨-, hr⟩ | ⟨c, a, c1, hc, ha, -, ⟨err, -, hr⟩ | ⟨-, hr⟩⟩
  · rw [hr]
  · rw [hr]
    unfold hashed_inos
    dsimp only
    rw [filter_ne_of_not_mem _ _ (alloc_not_live s c a c1 h hc ha).2.1]
  · rw [hr]
    obtain ⟨-, -, -, k4, -, -⟩ := new_inode_setup_keeps fresh_inode_info
      (atomic64_inc_return s.next_ino) dir mode rdev e
    have k4a : (new_inode_setup fresh_inode_info (atomic64_inc_return s.next_ino) dir mode
        rdev e).inode.i_hashed = false := k4
    unfold hashed_inos
    dsimp only
    rw [List.filter_cons]
    simp [k4a]

theorem find_inode_some_hashed (s : State) (ino a : Nat)
    (h : find_inode s scoutfs_iget_test ino = some a) :
    ∃ p ∈ s.inodes, p.1 = a ∧ p.2.inode.i_hashed = true ∧ p.2.ino = ino := by
  unfold find_inode at h
  cases hf : s.inodes.find? (fun p => p.2.inode.i_hashed && scoutfs_iget_test p.2 ino) with
  | none => rw [hf] at h; cases h
  | some q =>
    rw [hf] at h
    have hq := List.find?_some hf
    simp only [Bool.and_eq_true, scoutfs_iget_test, decide_eq_true_eq] at hq
    exact ⟨q, List.mem_of_find?_eq_some hf, by simpa using h, hq.1, hq.2⟩

theorem iget_not_created (s : State) (h : Inv s) (dir : Option inode) (mode rdev : Nat)
    (e : task_env) (a : Nat) (s1 : State)
    (hr : scoutfs_new_inode s dir mode rdev e = (.ok a, s1)) (n b : Nat) (s2 : State)
    (hg : scoutfs_iget s1 n = (.ok b, s2)) : b ≠ a := by
  have hInv1 : Inv s1 := by
    have := Inv_new_inode s dir mode rdev e h
    rw [hr] at this
    exact this
  rcases scoutfs_new_inode_cases s dir mode rdev e with
    ⟨-, hr0⟩ | ⟨c, a0, c1, hc, ha, -, ⟨err, -, hr0⟩ | ⟨-, hr0⟩⟩
  · rw [hr] at hr0
    injection hr0 with h1 _
    cases h1
  · rw [hr] at hr0
    injection hr0 with h1 _
    cases h1
  · rw [hr] at hr0
    injection hr0 with h1 h2
    injection h1 with h1
    subst h1
    have hnl : a ∉ live s := (alloc_not_live s c a c1 h hc ha).2.1
    have hin : s1.inodes = (a, new_inode_setup fresh_inode_info
        (atomic64_inc_return s.next_ino) dir mode rdev e) :: s.inodes := by rw [h2]
    have hunh : (new_inode_setup fresh_inode_info (atomic64_inc_return s.next_ino) dir mode
        rdev e).inode.i_hashed = false := (new_inode_setup_keeps _ _ _ _ _ _).2.2.2.1
    have hlive1 : a ∈ live s1 := by
      unfold live
      rw [hin]
      exact List.mem_cons_self _ _
    cases hf : find_inode s1 scoutfs_iget_test n with
    | some b0 =>
      have hl := find_inode_some_live s1 n b0 hf
      have hN : (get_obj s1 b0).inode.I_NEW = false := hInv1.2.2 _ (get_obj_mem s1 b0 hl)
      rw [scoutfs_iget_present s1 n b0 hf hN] at hg
      injection hg with g1 _
      injection g1 with g1
      subst g1
      obtain ⟨p, hp, hpa, hph, -⟩ := find_inode_some_hashed s1 n b0 hf
      intro hba
      subst hba
      rw [hin] at hp
      rcases List.mem_cons.mp hp with hp | hp
      · rw [hp] at hph
        rw [hunh] at hph
        cases hph
      · exact hnl (List.mem_map.mpr ⟨p, hp, hpa⟩)
    | none =>
      rcases scoutfs_iget_absent s1 n hf with
        ⟨-, hg0⟩ | ⟨c2, b0, c3, hc2, ha2, -, ⟨err, -, hg0⟩ | ⟨item, -, hg0⟩⟩
      · rw [hg0] at hg
        injection hg with g1 _
        cases g1
      · rw [hg0] at hg
        injection hg with g1 _
        cases g1
      · rw [hg0] at hg
        injection hg with g1 _
        injection g1 with g1
        subst g1
        intro hba
        subst hba
        exact (alloc_not_live s1 c2 b0 c3 hInv1 hc2 ha2).2.1 hlive1

theorem lookup_ok_mem (items : List scoutfs_item) (key : scoutfs_key) (item : scoutfs_item)
    (h : scoutfs_item_lookup items key = .ok item) : ∃ it ∈ items, it.key = key := by
  unfold scoutfs_item_lookup at h
  cases hf : items.find? (fun it => it.key = key) with
  | none => rw [hf] at h; cases h
  | some it => exact ⟨it, List.mem_of_find?_eq_some hf, by simpa using List.find?_some hf⟩

theorem item_write_val_keys (items : List scoutfs_item) (key : scoutfs_key) (val : List Nat)
    (k : scoutfs_key) (h : ∃ it ∈ items, it.key = k) :
    ∃ it ∈ item_write_val items key val, it.key = k := by
  induction items with
  | nil => simp at h
  | cons x rest ih =>
    obtain ⟨it, hit, hk⟩ := h
    unfold item_write_val
    by_cases hx : x.key = key
    · rw [if_pos hx]
      rcases List.mem_cons.mp hit with h1 | h1
      · exact ⟨{ x with val := val }, List.mem_cons_self _ _, by rw [← hk, h1]⟩
      · exact ⟨it, List.mem_cons_of_mem _ h1, hk⟩
    · rw [if_neg hx]
      rcases List.mem_cons.mp hit with h1 | h1
      · exact ⟨x, List.mem_cons_self _ _, by rw [← hk, h1]⟩
      · obtain ⟨it1, hit1, hk1⟩ := ih ⟨it, h1, hk⟩
        exact ⟨it1, List.mem_cons_of_mem _ hit1, hk1⟩

theorem Backed_of (s s1 : State) (hB : Backed s)
    (hin : ∀ q ∈ s1.inodes, q.2.inode.i_hashed = true →
      (∃ p ∈ s.inodes, p.2.inode.i_hashed = true ∧ p.2.ino = q.2.ino) ∨
      ∃ it ∈ s1.items, it.key = scoutfs_set_key q.2.ino SCOUTFS_INODE_KEY 0)
    (hit : ∀ k, (∃ it ∈ s.items, it.key = k) → ∃ it ∈ s1.items, it.key = k) : Backed s1 := by
  intro q hq hh
  rcases hin q hq hh with ⟨p, hp, hph, hpi⟩ | h
  · rw [← hpi]
    exact hit _ (hB p hp hph)
  · exact h

theorem Backed_modify (s : State) (a : Nat) (f : scoutfs_inode_info → scoutfs_inode_info)
    (hB : Backed s) (h1 : ∀ ci, (f ci).inode.i_hashed = ci.inode.i_hashed)
    (h2 : ∀ ci, (f ci).ino = ci.ino) : Backed (modify s a f) := by
  refine Backed_of s _ hB (fun q hq hh => Or.inl ?_) (fun k h => h)
  rcases mem_update_first s.inodes a f q hq with hq | ⟨p, hp, -, hq⟩
  · exact ⟨q, hq, hh, rfl⟩
  · rw [hq] at hh ⊢
    exact ⟨p, hp, (h1 p.2).symm.trans hh, (h2 p.2).symm⟩

theorem Backed_filter (s s1 : State) (a : Nat) (hB : Backed s)
    (h1 : s1.inodes = s.inodes.filter (fun p => p.1 ≠ a)) (h2 : s1.items = s.items) :
    Backed s1 := by
  refine Backed_of s _ hB (fun q hq hh => Or.inl ?_) (fun k h => by rw [h2]; exact h)
  rw [h1] at hq
  exact ⟨q, List.mem_of_mem_filter hq, hh, rfl⟩

theorem Backed_iput (s : State) (a : Nat) (hB : Backed s) : Backed (iput s a) := by
  unfold iput
  dsimp only
  split_ifs
  · exact Backed_filter s _ a hB rfl rfl
  · exact Backed_modify s a _ hB (fun _ => rfl) (fun _ => rfl)
  · exact Backed_modify s a _ hB (fun _ => rfl) (fun _ => rfl)

theorem Backed_new_inode (s : State) (dir : Option inode) (mode rdev : Nat) (e : task_env)
    (hB : Backed s) : Backed (scoutfs_new_inode s dir mode rdev e).2 := by
  rcases scoutfs_new_inode_cases s dir mode rdev e with
    ⟨-, hr⟩ | ⟨c, a, c1, hc, ha, -, ⟨err, -, hr⟩ | ⟨-, hr⟩⟩
  · rw [hr]; exact hB
  · rw [hr]
    exact Backed_filter s _ a hB rfl rfl
  · rw [hr]
    have hunh : (new_inode_setup fresh_inode_info (atomic64_inc_return s.next_ino) dir mode
        rdev e).inode.i_hashed = false := (new_inode_setup_keeps _ _ _ _ _ _).2.2.2.1
    refine Backed_of s _ hB (fun q hq hh => Or.inl ?_)
      (fun k h => ?_)
    · rcases List.mem_cons.mp hq with hq | hq
      · rw [hq] at hh
        rw [hunh] at hh
        cases hh
      · exact ⟨q, hq, hh, rfl⟩
    · obtain ⟨it, hit, hk⟩ := h
      exact ⟨it, List.mem_cons_of_mem _ hit, hk⟩

theorem Backed_iget (s : State) (ino : Nat) (h : Inv s) (hB : Backed s) :
    Backed (scoutfs_iget s ino).2 := by
  cases hf : find_inode s scoutfs_iget_test ino with
  | some a =>
    have hl := find_inode_some_live s ino a hf
    have hN : (get_obj s a).inode.I_NEW = false := h.2.2 _ (get_obj_mem s a hl)
    rw [scoutfs_iget_present s ino a hf hN]
    exact Backed_modify s a _ hB (fun _ => rfl) (fun _ => rfl)
  | none =>
    rcases scoutfs_iget_absent s ino hf with
      ⟨-, hr⟩ | ⟨c, a, c1, hc, ha, -, ⟨err, -, hr⟩ | ⟨item, hlk, hr⟩⟩
    · rw [hr]; exact hB
    · rw [hr]
      exact Backed_filter s _ a hB rfl rfl
    · rw [hr]
      refine Backed_of s _ hB (fun q hq hh => ?_) (fun k h => h)
      rcases List.mem_cons.mp hq with hq | hq
      · right
        rw [hq]
        exact lookup_ok_mem s.items _ item hlk
      · exact Or.inl ⟨q, hq, hh, rfl⟩

theorem Backed_update (s : State) (ci : scoutfs_inode_info) (hB : Backed s) :
    Backed (scoutfs_inode_update s ci).2 := by
  unfold scoutfs_inode_update
  dsimp only
  cases scoutfs_item_lookup s.items (scoutfs_set_key (scoutfs_ino ci) SCOUTFS_INODE_KEY 0) with
  | error e => exact hB
  | ok item =>
    exact Backed_of s _ hB (fun q hq hh => Or.inl ⟨q, hq, hh, rfl⟩)
      (fun k h => item_write_val_keys s.items _ _ k h)

theorem Backed_grace_period (s : State) (hB : Backed s) : Backed (rcu_grace_period s) := by
  unfold rcu_grace_period
  cases hr : s.rcu with
  | nil => exact hB
  | cons a rest =>
    dsimp only
    unfold scoutfs_i_callback
    dsimp only
    cases s.scoutfs_inode_cachep with
    | none => exact hB
    | some c => exact hB

theorem Backed_step (s : State) (op : Op) (h : Inv s) (hB : Backed s) : Backed (step s op) := by
  cases op with
  | new_inode dir mode rdev e => exact Backed_new_inode s dir mode rdev e hB
  | iget ino => exact Backed_iget s ino h hB
  | iput a =>
    simp only [step]
    split_ifs
    · exact Backed_iput s a hB
    · exact hB
  | update a =>
    simp only [step]
    split_ifs
    · exact Backed_update s _ hB
    · exact hB
  | grace_period => exact Backed_grace_period s hB

theorem Backed_run (s : State) (ops : List Op) (h : Inv s) (hB : Backed s) :
    Backed (run s ops) := by
  induction ops generalizing s with
  | nil => exact hB
  | cons op rest ih => exact ih (step s op) (Inv_step s op h) (Backed_step s op h hB)

theorem Backed_mounted (limit next_ino : Nat) (items : List scoutfs_item) :
    Backed (mounted limit next_ino items) := by
  intro p hp
  simp [mounted, scoutfs_inode_init] at hp

theorem Inv_live_nodup (s : State) (h : Inv s) : (live s).Nodup := by
  obtain ⟨⟨c0, -, hnd, -⟩, -, -⟩ := h
  exact (List.nodup_append.mp (List.nodup_append.mp hnd).2.1).2.1

theorem get_obj_of_mem (s : State) (h : Inv s) (p : Nat × scoutfs_inode_info)
    (hp : p ∈ s.inodes) : get_obj s p.1 = p.2 := by
  have hm := get_obj_mem s p.1 ⟨p, hp, rfl⟩
  have hnd : (s.inodes.map (fun q => q.1)).Nodup := Inv_live_nodup s h
  have := List.inj_on_of_nodup_map hnd hm hp rfl
  exact congrArg Prod.snd this

theorem iget_ok_find (s : State) (h : Inv s) (n a : Nat) (s1 : State)
    (hr : scoutfs_iget s n = (.ok a, s1)) : find_inode s1 scoutfs_iget_test n = some a := by
  cases hf : find_inode s scoutfs_iget_test n with
  | some b =>
    have hl := find_inode_some_live s n b hf
    have hN : (get_obj s b).inode.I_NEW = false := h.2.2 _ (get_obj_mem s b hl)
    rw [scoutfs_iget_present s n b hf hN] at hr
    injection hr with hr1 hr2
    injection hr1 with hr1
    subst hr1
    rw [← hr2]
    refine Eq.trans (find_inode_modify s b _ n ?_ ?_) hf <;> intro _ <;> rfl
  | none =>
    rcases scoutfs_iget_absent s n hf with
      ⟨-, hr0⟩ | ⟨c, b, c1, hc, ha, -, ⟨err, -, hr0⟩ | ⟨item, -, hr0⟩⟩
    · rw [hr0] at hr
      injection hr with hr1 _
      cases hr1
    · rw [hr0] at hr
      injection hr with hr1 _
      cases hr1
    · rw [hr0] at hr
      injection hr with hr1 hr2
      injection hr1 with hr1
      subst hr1
      rw [← hr2]
      simp [find_inode, iget_loaded_obj, iget_new_obj, scoutfs_iget_test, scoutfs_iget_set,
        load_inode, (set_inode_ops_keeps _).2.2.1]

theorem iget_twice (s : State) (h : Inv s) (n a : Nat) (s1 : State)
    (hr : scoutfs_iget s n = (.ok a, s1)) : ∃ s2, scoutfs_iget s1 n = (.ok a, s2) := by
  have hInv1 : Inv s1 := by
    have := Inv_iget s n h
    rw [hr] at this
    exact this
  have key := iget_ok_find s h n a s1 hr
  have hl := find_inode_some_live s1 n a key
  have hN : (get_obj s1 a).inode.I_NEW = false := hInv1.2.2 _ (get_obj_mem s1 a hl)
  exact ⟨_, scoutfs_iget_present s1 n a key hN⟩

theorem iget_returns_number (s : State) (h : Inv s) (n a : Nat) (s1 : State)
    (hr : scoutfs_iget s n = (.ok a, s1)) :
    (get_obj s1 a).ino = n ∧ (get_obj s1 a).inode.i_hashed = true ∧ a ∈ live s1 ∧
    ∀ q ∈ s1.inodes, q.2.inode.i_hashed = true → q.2.ino = n → q.1 = a := by
  have hInv1 : Inv s1 := by
    have := Inv_iget s n h
    rw [hr] at this
    exact this
  obtain ⟨p, hp, hpa, hph, hpn⟩ := find_inode_some_hashed s1 n a (iget_ok_find s h n a s1 hr)
  have hobj : get_obj s1 a = p.2 := by
    rw [← hpa]
    exact get_obj_of_mem s1 hInv1 p hp
  refine ⟨by rw [hobj]; exact hpn, by rw [hobj]; exact hph,
    List.mem_map.mpr ⟨p, hp, hpa⟩, fun q hq hqh hqn => ?_⟩
  have hnd : ((s1.inodes.filter (fun p => p.2.inode.i_hashed)).map (fun p => p.2.ino)).Nodup :=
    hInv1.2.1
  have hpf : p ∈ s1.inodes.filter (fun p => p.2.inode.i_hashed) :=
    List.mem_filter.mpr ⟨hp, hph⟩
  have hqf : q ∈ s1.inodes.filter (fun p => p.2.inode.i_hashed) :=
    List.mem_filter.mpr ⟨hq, hqh⟩
  have := List.inj_on_of_nodup_map hnd hqf hpf (hqn.trans hpn.symm)
  rw [this]
  exact hpa

theorem load_blank (dst : scoutfs_inode_info) :
    persisted_fields (load_inode dst (scoutfs_inode_at (List.replicate sizeof_scoutfs_inode 0))) =
      blank_fields := by
  have e : scoutfs_inode_at (List.replicate sizeof_scoutfs_inode 0) =
      { size := 0, nlink := 0, uid := 0, gid := 0, mode := 0, rdev := 0
        atime := { sec := 0, nsec := 0 }, mtime := { sec := 0, nsec := 0 }
        ctime := { sec := 0, nsec := 0 }, salt := 0 } := by decide
  rw [e]
  unfold persisted_fields load_inode blank_fields
  dsimp only
  have h64 : to_signed 64 (le64_to_cpu 0) = 0 := by decide
  have h32 : le32_to_cpu 0 = 0 := by decide
  rw [h64, h32]
  rfl

theorem persisted_iget_loaded (ino : Nat) (item : scoutfs_item) :
    persisted_fields (iget_loaded_obj ino item) =
      persisted_fields (load_inode (iget_new_obj ino) (scoutfs_inode_at item.val)) := by
  obtain ⟨-, -, -, k4, k5, k6, k7, k8, k9, k10, k11, k12, -⟩ := set_inode_ops_keeps
    (load_inode (iget_new_obj ino) (scoutfs_inode_at item.val)).inode
  unfold iget_loaded_obj persisted_fields
  dsimp only
  rw [k4, k5, k6, k7, k8, k9, k10, k11, k12]

theorem iget_after_create (s : State) (h : Inv s) (hB : Backed s) (dir : Option inode)
    (mode rdev : Nat) (e : task_env) (a : Nat) (s1 : State)
    (hr : scoutfs_new_inode s dir mode rdev e = (.ok a, s1)) :
    find_inode s1 scoutfs_iget_test (get_obj s1 a).ino = none ∧
    (scoutfs_iget s1 (get_obj s1 a).ino = (.error (-ENOMEM), s1) ∨
     ∃ b s2, scoutfs_iget s1 (get_obj s1 a).ino = (.ok b, s2) ∧ b ≠ a ∧
       live s2 = b :: live s1 ∧ (get_obj s2 b).ino = (get_obj s1 a).ino ∧
       get_obj s2 a = get_obj s1 a ∧ persisted_fields (get_obj s2 b) = blank_fields) := by
  have hInv1 : Inv s1 := by
    have := Inv_new_inode s dir mode rdev e h
    rw [hr] at this
    exact this
  have hhash : hashed_inos s1 = hashed_inos s := by
    have := hashed_inos_new_inode s dir mode rdev e h
    rw [hr] at this
    exact this
  rcases scoutfs_new_inode_cases s dir mode rdev e with
    ⟨-, hr0⟩ | ⟨c, a0, c1, hc, ha, -, ⟨err, -, hr0⟩ | ⟨hno, hr0⟩⟩
  · rw [hr] at hr0
    injection hr0 with h1 _
    cases h1
  · rw [hr] at hr0
    injection hr0 with h1 _
    cases h1
  · rw [hr] at hr0
    injection hr0 with h1 h2
    injection h1 with h1
    subst h1
    have hin : s1.inodes = (a, new_inode_setup fresh_inode_info
        (atomic64_inc_return s.next_ino) dir mode rdev e) :: s.inodes := by rw [h2]
    have hitems : s1.items =
        { key := scoutfs_set_key (atomic64_inc_return s.next_ino) SCOUTFS_INODE_KEY 0
          val_len := sizeof_scoutfs_inode
          val := List.replicate sizeof_scoutfs_inode 0 } :: s.items := by rw [h2]
    have hobj : get_obj s1 a = new_inode_setup fresh_inode_info
        (atomic64_inc_return s.next_ino) dir mode rdev e := get_obj_head s1 a _ s.inodes hin
    have hino : (get_obj s1 a).ino = atomic64_inc_return s.next_ino := by rw [hobj]; rfl
    have hlive1 : a ∈ live s1 := by
      unfold live
      rw [hin]
      exact List.mem_cons_self _ _
    have hnh : atomic64_inc_return s.next_ino ∉ hashed_inos s := by
      intro hm
      unfold hashed_inos at hm
      obtain ⟨p, hp, hpn⟩ := List.mem_map.mp hm
      obtain ⟨hp1, hp2⟩ := List.mem_filter.mp hp
      obtain ⟨it, hit, hk⟩ := hB p hp1 hp2
      rw [hpn] at hk
      exact hno it hit hk
    have hf : find_inode s1 scoutfs_iget_test (get_obj s1 a).ino = none := by
      rw [hino, find_inode_none_iff, hhash]
      exact hnh
    refine ⟨hf, ?_⟩
    have hlook : scoutfs_item_lookup s1.items
        (scoutfs_set_key (get_obj s1 a).ino SCOUTFS_INODE_KEY 0) =
        .ok { key := scoutfs_set_key (atomic64_inc_return s.next_ino) SCOUTFS_INODE_KEY 0
              val_len := sizeof_scoutfs_inode
              val := List.replicate sizeof_scoutfs_inode 0 } := by
      rw [hino, hitems]
      simp [scoutfs_item_lookup]
    rcases scoutfs_iget_absent s1 _ hf with
      ⟨-, hg⟩ | ⟨c2, b, c3, hc2, ha2, -, ⟨err, hl, hg⟩ | ⟨item, hl, hg⟩⟩
    · exact Or.inl hg
    · rw [hlook] at hl
      cases hl
    · right
      rw [hlook] at hl
      injection hl with hl
      have hba : b ≠ a := by
        intro hba
        subst hba
        exact (alloc_not_live s1 c2 b c3 hInv1 hc2 ha2).2.1 hlive1
      refine ⟨b, _, hg, hba, rfl, ?_, ?_, ?_⟩
      · rw [get_obj_head _ b _ s1.inodes rfl]
        rfl
      · unfold get_obj
        simp [hba]
      · rw [get_obj_head _ b _ s1.inodes rfl, persisted_iget_loaded, ← hl]
        exact load_blank _

/-! ## Identity cache claims -/

/-- Counterexample to claim C2: on a freshly mounted super block `scoutfs_new_inode`
returns the object at address 0 with inode number 42; `scoutfs_iget(42)`, called while that
object is live, returns the object at address 1; afterwards both objects are live and both
carry the number 42. -/
theorem iget_after_new_inode_is_second_object :
    (scoutfs_new_inode (mounted 4 41 []) none 0o100644 0 sample_env).1 = .ok 0 ∧
    (get_obj created_state 0).ino = 42 ∧
    (scoutfs_iget created_state 42).1 = .ok 1 ∧
    live (scoutfs_iget created_state 42).2 = [1, 0] ∧
    (get_obj (scoutfs_iget created_state 42).2 0).ino = 42 ∧
    (get_obj (scoutfs_iget created_state 42).2 1).ino = 42 := by
  decide

/-- Claim C2, amended.  Identity uniqueness holds for the inode hash table: in every state
reachable from a mounted super block through `scoutfs_new_inode`, `scoutfs_iget`, `iput`,
`scoutfs_inode_update` and RCU grace periods, the hashed objects carry pairwise distinct
inode numbers and the live objects have pairwise distinct addresses; the object a
successful `scoutfs_iget(n)` returns is live, hashed, carries the number `n` and is the
only hashed object with that number, and a `scoutfs_iget(n)` that follows it returns the
same object.  `scoutfs_new_inode` leaves the hash table as it found it and no
`scoutfs_iget` that follows it returns the object it created: a `scoutfs_iget(n)` for the
number `n` of the created object, made right after the creation, finds no object for `n`
in the table and either fails with `-ENOMEM` or returns a newly allocated second object,
distinct from the created one and carrying the same number `n`, loaded from the record,
while the created object stays live with its number. -/
theorem identity_table_unique (limit next_ino : Nat) (items : List scoutfs_item)
    (ops : List Op) :
    (hashed_inos (run (mounted limit next_ino items) ops)).Nodup ∧
    (live (run (mounted limit next_ino items) ops)).Nodup ∧
    (∀ n a s1, scoutfs_iget (run (mounted limit next_ino items) ops) n = (.ok a, s1) →
      ((get_obj s1 a).ino = n ∧ (get_obj s1 a).inode.i_hashed = true ∧ a ∈ live s1 ∧
        ∀ q ∈ s1.inodes, q.2.inode.i_hashed = true → q.2.ino = n → q.1 = a) ∧
      ∃ s2, scoutfs_iget s1 n = (.ok a, s2)) ∧
    (∀ dir mode rdev e,
      hashed_inos (scoutfs_new_inode (run (mounted limit next_ino items) ops)
        dir mode rdev e).2 = hashed_inos (run (mounted limit next_ino items) ops)) ∧
    (∀ dir mode rdev e a s1,
      scoutfs_new_inode (run (mounted limit next_ino items) ops) dir mode rdev e = (.ok a, s1) →
      (∀ n b s2, scoutfs_iget s1 n = (.ok b, s2) → b ≠ a) ∧
      find_inode s1 scoutfs_iget_test (get_obj s1 a).ino = none ∧
      (scoutfs_iget s1 (get_obj s1 a).ino = (.error (-ENOMEM), s1) ∨
       ∃ b s2, scoutfs_iget s1 (get_obj s1 a).ino = (.ok b, s2) ∧ b ≠ a ∧
         live s2 = b :: live s1 ∧ (get_obj s2 b).ino = (get_obj s1 a).ino ∧
         get_obj s2 a = get_obj s1 a ∧ persisted_fields (get_obj s2 b) = blank_fields)) := by
  have h := Inv_run _ ops (Inv_mounted limit next_ino items)
  have hB := Backed_run _ ops (Inv_mounted limit next_ino items)
    (Backed_mounted limit next_ino items)
  exact ⟨h.2.1, Inv_live_nodup _ h,
    fun n a s1 hr => ⟨iget_returns_number _ h n a s1 hr, iget_twice _ h n a s1 hr⟩,
    fun dir mode rdev e => hashed_inos_new_inode _ dir mode rdev e h,
    fun dir mode rdev e a s1 hr =>
      ⟨fun n b s2 hg => iget_not_created _ h dir mode rdev e a s1 hr n b s2 hg,
        iget_after_create _ h hB dir mode rdev e a s1 hr⟩⟩

theorem identity_table_unique_witness :
    ((scoutfs_iget (run blank_record_state [Op.iget 7, Op.iput 0]) 7).1 = .ok 1 ∧
      (get_obj (scoutfs_iget (run blank_record_state [Op.iget 7, Op.iput 0]) 7).2 1).ino = 7 ∧
      ∃ s2, scoutfs_iget (scoutfs_iget (run blank_record_state [Op.iget 7, Op.iput 0]) 7).2 7 =
        (.ok 1, s2)) ∧
    (scoutfs_iget created_state 42).1 = .ok 1 ∧
    (scoutfs_new_inode one_slot_state none 0o100644 0 sample_env).1 = .ok 0 ∧
    (scoutfs_iget (scoutfs_new_inode one_slot_state none 0o100644 0 sample_env).2 42).1 =
      .error (-ENOMEM) ∧
    find_inode created_state scoutfs_iget_test 42 = none :=
  have h1 := (identity_table_unique 4 41 [blank_record 7] [Op.iget 7, Op.iput 0]).2.2.1 7 1
    (scoutfs_iget (run blank_record_state [Op.iget 7, Op.iput 0]) 7).2 (by decide)
  have h2 := (identity_table_unique 4 41 [] []).2.2.2.2 none 0o100644 0 sample_env 0
    created_state (by decide)
  ⟨⟨by decide, h1.1.1, h1.2⟩, by decide, by decide, by decide, h2.2.1⟩

/-! ## Object pool claims -/

theorem not_live_filter (l : List (Nat × scoutfs_inode_info)) (a : Nat) :
    a ∉ (l.filter (fun p => p.1 ≠ a)).map (fun p => p.1) := by
  intro h
  obtain ⟨p, hp, hpa⟩ := List.mem_map.mp h
  have := (List.mem_filter.mp hp).2
  simp [hpa] at this

theorem find_inode_filter_none (s s1 : State) (a ino : Nat)
    (h : find_inode s scoutfs_iget_test ino = none)
    (h1 : s1.inodes = s.inodes.filter (fun p => p.1 ≠ a)) :
    find_inode s1 scoutfs_iget_test ino = none := by
  unfold find_inode at h ⊢
  rw [Option.map_eq_none'] at h ⊢
  rw [List.find?_eq_none] at h ⊢
  intro p hp
  rw [h1] at hp
  exact h p (List.mem_of_mem_filter hp)

theorem find_inode_ne_of_not_live (s : State) (a m : Nat) (h : a ∉ live s) :
    find_inode s scoutfs_iget_test m ≠ some a := by
  intro hf
  obtain ⟨p, hp, hpa⟩ := find_inode_some_live s m a hf
  exact h (List.mem_map.mpr ⟨p, hp, hpa⟩)

theorem iget_lookup_fails (s : State) (ino a : Nat) (s1 : State) (e : Int)
    (hf : find_inode s scoutfs_iget_test ino = none) (hal : alloc_inode s = (some a, s1))
    (hl : scoutfs_item_lookup s.items (scoutfs_set_key ino SCOUTFS_INODE_KEY 0) = .error e) :
    ∃ c1, scoutfs_iget s ino =
      (.error e, { s with scoutfs_inode_cachep := some c1
                          rcu := s.rcu ++ [a]
                          inodes := s.inodes.filter (fun p => p.1 ≠ a) }) := by
  rcases scoutfs_iget_absent s ino hf with
    ⟨h0, -⟩ | ⟨c, b, c1, -, -, h0, ⟨err, hl0, hr⟩ | ⟨item, hl0, -⟩⟩
  · rw [h0] at hal
    injection hal with h1 _
    cases h1
  · rw [h0] at hal
    injection hal with h1 _
    injection h1 with h1
    subst h1
    rw [hl] at hl0
    injection hl0 with hl0
    subst hl0
    exact ⟨c1, hr⟩
  · rw [hl] at hl0
    cases hl0

theorem new_inode_create_fails (s : State) (dir : Option inode) (mode rdev : Nat)
    (env : task_env) (a : Nat) (s1 : State) (e : Int) (hal : new_inode s = (some a, s1))
    (hl : scoutfs_item_create s.items
      (scoutfs_set_key (atomic64_inc_return s.next_ino) SCOUTFS_INODE_KEY 0)
      sizeof_scoutfs_inode = .error e) :
    ∃ c1, scoutfs_new_inode s dir mode rdev env =
      (.error e, { s with scoutfs_inode_cachep := some c1
                          rcu := s.rcu ++ [a]
                          next_ino := atomic64_inc_return s.next_ino
                          inodes := s.inodes.filter (fun p => p.1 ≠ a) }) := by
  rcases scoutfs_new_inode_cases s dir mode rdev env with
    ⟨h0, -⟩ | ⟨c, b, c1, -, -, h0, ⟨err, hl0, hr⟩ | ⟨hl0, -⟩⟩
  · rw [h0] at hal
    injection hal with h1 _
    cases h1
  · rw [h0] at hal
    injection hal with h1 _
    injection h1 with h1
    subst h1
    rw [hl] at hl0
    injection hl0 with hl0
    subst hl0
    exact ⟨c1, hr⟩
  · obtain ⟨-, it, hit, hk⟩ := (create_error_iff _ _ _ _).mp hl
    exact absurd hk (hl0 it hit)

/-- Claim C7.  Failure cleanup.  When `scoutfs_iget(ino)` inserts a new object (the number
is not in the hash table and the allocation returns `a`) and the lookup of the record
fails with `e`, the call returns `e`, and afterwards `a` is no longer a live object, has
been handed to `scoutfs_destroy_inode` (it is in the RCU queue), and the hash table holds
no object for `ino`, so that a later `scoutfs_iget(ino)` inserts and loads a new object.
When `scoutfs_new_inode` has allocated `a` and the creation of the record fails with `e`,
the call returns `e`, and afterwards `a` is no longer live, is in the RCU queue, and no
lookup of the hash table finds it. -/
theorem failure_cleanup (s : State) :
    (∀ ino a s1 e, find_inode s scoutfs_iget_test ino = none →
      alloc_inode s = (some a, s1) →
      scoutfs_item_lookup s.items (scoutfs_set_key ino SCOUTFS_INODE_KEY 0) = .error e →
      (scoutfs_iget s ino).1 = .error e ∧
      a ∉ live (scoutfs_iget s ino).2 ∧
      a ∈ (scoutfs_iget s ino).2.rcu ∧
      find_inode (scoutfs_iget s ino).2 scoutfs_iget_test ino = none ∧
      ∀ m, find_inode (scoutfs_iget s ino).2 scoutfs_iget_test m ≠ some a) ∧
    (∀ dir mode rdev env a s1 e, new_inode s = (some a, s1) →
      scoutfs_item_create s.items
        (scoutfs_set_key (atomic64_inc_return s.next_ino) SCOUTFS_INODE_KEY 0)
        sizeof_scoutfs_inode = .error e →
      (scoutfs_new_inode s dir mode rdev env).1 = .error e ∧
      a ∉ live (scoutfs_new_inode s dir mode rdev env).2 ∧
      a ∈ (scoutfs_new_inode s dir mode rdev env).2.rcu ∧
      ∀ m, find_inode (scoutfs_new_inode s dir mode rdev env).2 scoutfs_iget_test m ≠ some a) := by
  constructor
  · intro ino a s1 e hf hal hl
    obtain ⟨c1, hr⟩ := iget_lookup_fails s ino a s1 e hf hal hl
    rw [hr]
    have hnl : a ∉ live { s with scoutfs_inode_cachep := some c1
                                 rcu := s.rcu ++ [a]
                                 inodes := s.inodes.filter (fun p => p.1 ≠ a) } :=
      not_live_filter s.inodes a
    exact ⟨rfl, hnl, List.mem_append_right _ (List.mem_singleton_self a),
      find_inode_filter_none s _ a ino hf rfl, fun m => find_inode_ne_of_not_live _ a m hnl⟩
  · intro dir mode rdev env a s1 e hal hl
    obtain ⟨c1, hr⟩ := new_inode_create_fails s dir mode rdev env a s1 e hal hl
    rw [hr]
    have hnl : a ∉ live { s with scoutfs_inode_cachep := some c1
                                 rcu := s.rcu ++ [a]
                                 next_ino := atomic64_inc_return s.next_ino
                                 inodes := s.inodes.filter (fun p => p.1 ≠ a) } :=
      not_live_filter s.inodes a
    exact ⟨rfl, hnl, List.mem_append_right _ (List.mem_singleton_self a),
      fun m => find_inode_ne_of_not_live _ a m hnl⟩

theorem failure_cleanup_witness :
    ((scoutfs_iget blank_record_state 99).1 = .error (-ENOENT) ∧
      0 ∉ live (scoutfs_iget blank_record_state 99).2 ∧
      0 ∈ (scoutfs_iget blank_record_state 99).2.rcu ∧
      find_inode (scoutfs_iget blank_record_state 99).2 scoutfs_iget_test 99 = none) ∧
    ((scoutfs_new_inode colliding_state none 0o100644 0 sample_env).1 = .error (-EEXIST) ∧
      0 ∉ live (scoutfs_new_inode colliding_state none 0o100644 0 sample_env).2 ∧
      0 ∈ (scoutfs_new_inode colliding_state none 0o100644 0 sample_env).2.rcu) :=
  have h1 := (failure_cleanup blank_record_state).1 99 0 (alloc_inode blank_record_state).2
    (-ENOENT) (by decide) (by decide) (by decide)
  have h2 := (failure_cleanup colliding_state).2 none 0o100644 0 sample_env 0
    (new_inode colliding_state).2 (-EEXIST) (by decide) (by decide)
  ⟨⟨h1.1, h1.2.1, h1.2.2.1, h1.2.2.2.1⟩, ⟨h2.1, h2.2.1, h2.2.2.1⟩⟩

/-- Claim C6.  Error propagation.  Whenever the item-store call an operation makes fails
with `e`, the operation returns exactly `e`, never a success value: `scoutfs_iget` when it
has inserted a new object and the lookup fails, `scoutfs_inode_update` when its lookup
fails, `scoutfs_new_inode` when it has allocated an object and the creation fails.  In
particular, for a number with no record `scoutfs_iget` and `scoutfs_inode_update` return
`-ENOENT`, and `scoutfs_new_inode` returns `-EEXIST` when a record for the number it
allocates is already present. -/
theorem error_propagation (s : State) :
    (∀ ino a s1 e, find_inode s scoutfs_iget_test ino = none →
      alloc_inode s = (some a, s1) →
      scoutfs_item_lookup s.items (scoutfs_set_key ino SCOUTFS_INODE_KEY 0) = .error e →
      (scoutfs_iget s ino).1 = .error e) ∧
    (∀ ci e, scoutfs_item_lookup s.items (scoutfs_set_key ci.ino SCOUTFS_INODE_KEY 0) = .error e →
      scoutfs_inode_update s ci = (e, s) ∧ e ≠ 0) ∧
    (∀ dir mode rdev env a s1 e, new_inode s = (some a, s1) →
      scoutfs_item_create s.items
        (scoutfs_set_key (atomic64_inc_return s.next_ino) SCOUTFS_INODE_KEY 0)
        sizeof_scoutfs_inode = .error e →
      (scoutfs_new_inode s dir mode rdev env).1 = .error e) ∧
    (∀ ino a s1, find_inode s scoutfs_iget_test ino = none →
      alloc_inode s = (some a, s1) →
      (∀ it ∈ s.items, it.key ≠ scoutfs_set_key ino SCOUTFS_INODE_KEY 0) →
      (scoutfs_iget s ino).1 = .error (-ENOENT)) ∧
    (∀ ci, (∀ it ∈ s.items, it.key ≠ scoutfs_set_key ci.ino SCOUTFS_INODE_KEY 0) →
      scoutfs_inode_update s ci = (-ENOENT, s)) ∧
    (∀ dir mode rdev env a s1, new_inode s = (some a, s1) →
      (∃ it ∈ s.items,
        it.key = scoutfs_set_key (atomic64_inc_return s.next_ino) SCOUTFS_INODE_KEY 0) →
      (scoutfs_new_inode s dir mode rdev env).1 = .error (-EEXIST)) := by
  have hu : ∀ ci e,
      scoutfs_item_lookup s.items (scoutfs_set_key ci.ino SCOUTFS_INODE_KEY 0) = .error e →
      scoutfs_inode_update s ci = (e, s) := by
    intro ci e hl
    unfold scoutfs_inode_update scoutfs_ino
    simp only [hl]
  refine ⟨fun ino a s1 e hf hal hl => ?_, fun ci e hl => ⟨hu ci e hl, ?_⟩,
    fun dir mode rdev env a s1 e hal hl => ?_, fun ino a s1 hf hal hno => ?_,
    fun ci hno => hu ci _ ((lookup_error_iff _ _ _).mpr ⟨rfl, hno⟩),
    fun dir mode rdev env a s1 hal hex => ?_⟩
  · obtain ⟨c1, hr⟩ := iget_lookup_fails s ino a s1 e hf hal hl
    rw [hr]
  · rw [((lookup_error_iff _ _ _).mp hl).1]
    decide
  · obtain ⟨c1, hr⟩ := new_inode_create_fails s dir mode rdev env a s1 e hal hl
    rw [hr]
  · obtain ⟨c1, hr⟩ := iget_lookup_fails s ino a s1 _ hf hal
      ((lookup_error_iff _ _ _).mpr ⟨rfl, hno⟩)
    rw [hr]
  · obtain ⟨c1, hr⟩ := new_inode_create_fails s dir mode rdev env a s1 _ hal
      ((create_error_iff _ _ _ _).mpr ⟨rfl, hex⟩)
    rw [hr]

theorem error_propagation_witness :
    (scoutfs_iget blank_record_state 99).1 = .error (-ENOENT) ∧
    scoutfs_inode_update blank_record_state { fresh_inode_info with ino := 99 } =
      (-ENOENT, blank_record_state) ∧
    (scoutfs_new_inode colliding_state none 0o100644 0 sample_env).1 = .error (-EEXIST) :=
  ⟨(error_propagation blank_record_state).2.2.2.1 99 0 (alloc_inode blank_record_state).2
      (by decide) (by decide) (by decide),
   (error_propagation blank_record_state).2.2.2.2.1 { fresh_inode_info with ino := 99 }
      (by decide),
   (error_propagation colliding_state).2.2.2.2.2 none 0o100644 0 sample_env 0
      (new_inode colliding_state).2 (by decide) (by decide)⟩


theorem inode_init_owner_fields (i : inode) (dir : Option inode) (mode : Nat) (e : task_env)
    (hm : mode < 2 ^ 16) (hu : e.fsuid < 2 ^ 32) (hg : e.fsgid < 2 ^ 32)
    (hd : ∀ d, dir = some d → d.i_gid < 2 ^ 32) :
    (inode_init_owner i dir mode e).i_uid < 2 ^ 32 ∧
    (inode_init_owner i dir mode e).i_gid < 2 ^ 32 ∧
    (inode_init_owner i dir mode e).i_mode < 2 ^ 16 := by
  have hs : S_ISGID < 2 ^ 16 := by decide
  unfold inode_init_owner
  cases dir with
  | none => exact ⟨hu, hg, hm⟩
  | some d =>
    dsimp only
    split_ifs
    · exact ⟨hu, hd d rfl, Nat.or_lt_two_pow hm hs⟩
    · exact ⟨hu, hd d rfl, hm⟩
    · exact ⟨hu, hg, hm⟩

theorem new_inode_setup_valid (ino : Nat) (dir : Option inode) (mode rdev : Nat)
    (e : task_env) (hm : mode < 2 ^ 16) (hr : rdev < 2 ^ 32) (hu : e.fsuid < 2 ^ 32)
    (hg : e.fsgid < 2 ^ 32) (hn : timespec_valid e.now)
    (hd : ∀ d, dir = some d → d.i_gid < 2 ^ 32) :
    inode_valid (new_inode_setup fresh_inode_info ino dir mode rdev e) := by
  obtain ⟨o1, o2, o3⟩ := inode_init_owner_fields { fresh_inode_info.inode with i_ino := ino }
    dir mode e hm hu hg hd
  obtain ⟨-, -, -, g4, g5⟩ := inode_init_owner_keeps { fresh_inode_info.inode with i_ino := ino }
    dir mode e
  obtain ⟨-, -, -, k4, k5, k6, k7, k8, k9, k10, k11, k12, -⟩ := set_inode_ops_keeps
    { inode_init_owner { fresh_inode_info.inode with i_ino := ino } dir mode e with
      i_blocks := 0, i_bytes := 0, i_mtime := e.now, i_atime := e.now, i_ctime := e.now
      i_rdev := rdev }
  unfold inode_valid new_inode_setup
  dsimp only
  rw [k4, k5, k6, k7, k8, k9, k10, k11, k12]
  dsimp only
  rw [g4, g5]
  refine ⟨?_, ?_, ?_, o1, o2, o3, hr, hn, hn, hn, Nat.mod_lt _ (by norm_num)⟩ <;>
    simp [fresh_inode_info, inode_init_always]

/-! ## Creation -/

/-- Counterexample to claim C3: `scoutfs_new_inode` creates inode 42 with mode 0100644,
the current time and salt 77; without an intervening `scoutfs_inode_update`, loading the
record of 42 into a fresh object returns 0 and yields mode 0, zero timestamps and salt 0,
and so does `scoutfs_iget(42)`. -/
theorem created_record_is_blank :
    (scoutfs_new_inode (mounted 4 41 []) none 0o100644 0 sample_env).1 = .ok 0 ∧
    (get_obj created_state 0).ino = 42 ∧
    (get_obj created_state 0).inode.i_mode = 0o100644 ∧
    (get_obj created_state 0).inode.i_mtime = { tv_sec := 1446400000, tv_nsec := 5 } ∧
    (get_obj created_state 0).salt = 77 ∧
    (scoutfs_read_locked_inode created_state { fresh_inode_info with ino := 42 }).1 = 0 ∧
    (scoutfs_read_locked_inode created_state
      { fresh_inode_info with ino := 42 }).2.inode.i_mode = 0 ∧
    (scoutfs_read_locked_inode created_state
      { fresh_inode_info with ino := 42 }).2.inode.i_mtime = { tv_sec := 0, tv_nsec := 0 } ∧
    (scoutfs_read_locked_inode created_state { fresh_inode_info with ino := 42 }).2.salt = 0 ∧
    (scoutfs_iget created_state 42).1 = .ok 1 ∧
    (get_obj (scoutfs_iget created_state 42).2 1).inode.i_mode = 0 := by
  decide

/-- Claim C3, amended.  Creation makes the record but does not write the fields: for every
successful `scoutfs_new_inode(sb, dir, mode, rdev)` returning an object with number `n`
(the incremented counter; size 0, the given rdev, the current time in all three
timestamps, the random salt), the item store has gained, under the key of `n`, a
zero-filled record of the fixed size; loading it without an intervening
`scoutfs_inode_update` returns 0 and yields zero in every persisted field; and once
`scoutfs_inode_update` has been called on the created object, loading yields the created
object's fields. -/
theorem new_inode_creates_blank_record (s : State) (dir : Option inode) (mode rdev : Nat)
    (env : task_env) (a : Nat) (s1 : State)
    (hm : mode < 2 ^ 16) (hrd : rdev < 2 ^ 32) (hu : env.fsuid < 2 ^ 32)
    (hg : env.fsgid < 2 ^ 32) (hn : timespec_valid env.now)
    (hdir : ∀ d, dir = some d → d.i_gid < 2 ^ 32)
    (h : scoutfs_new_inode s dir mode rdev env = (.ok a, s1)) :
    ((get_obj s1 a).ino = atomic64_inc_return s.next_ino ∧
      (get_obj s1 a).inode.i_size = 0 ∧ (get_obj s1 a).inode.i_rdev = rdev ∧
      (get_obj s1 a).inode.i_atime = env.now ∧ (get_obj s1 a).inode.i_mtime = env.now ∧
      (get_obj s1 a).inode.i_ctime = env.now ∧ (get_obj s1 a).salt = env.random % 2 ^ 32 ∧
      (dir = none → (get_obj s1 a).inode.i_mode = mode)) ∧
    scoutfs_item_lookup s1.items (scoutfs_set_key (get_obj s1 a).ino SCOUTFS_INODE_KEY 0) =
      .ok { key := scoutfs_set_key (get_obj s1 a).ino SCOUTFS_INODE_KEY 0
            val_len := sizeof_scoutfs_inode
            val := List.replicate sizeof_scoutfs_inode 0 } ∧
    (∀ dst, dst.ino = (get_obj s1 a).ino →
      (scoutfs_read_locked_inode s1 dst).1 = 0 ∧
      persisted_fields (scoutfs_read_locked_inode s1 dst).2 = blank_fields) ∧
    (∀ dst, dst.ino = (get_obj s1 a).ino →
      (scoutfs_inode_update s1 (get_obj s1 a)).1 = 0 ∧
      (scoutfs_read_locked_inode (scoutfs_inode_update s1 (get_obj s1 a)).2 dst).1 = 0 ∧
      persisted_fields (scoutfs_read_locked_inode (scoutfs_inode_update s1 (get_obj s1 a)).2
        dst).2 = persisted_fields (get_obj s1 a)) := by
  rcases scoutfs_new_inode_cases s dir mode rdev env with
    ⟨-, hr⟩ | ⟨c, b, c1, -, -, -, ⟨err, -, hr⟩ | ⟨-, hr⟩⟩
  · rw [hr] at h
    injection h with h1 _
    cases h1
  · rw [hr] at h
    injection h with h1 _
    cases h1
  · rw [hr] at h
    injection h with h1 h2
    injection h1 with h1
    subst h1
    have hobj : get_obj s1 b = new_inode_setup fresh_inode_info
        (atomic64_inc_return s.next_ino) dir mode rdev env :=
      get_obj_head s1 b _ s.inodes (by rw [← h2])
    have hv : inode_valid (get_obj s1 b) := by
      rw [hobj]
      exact new_inode_setup_valid _ dir mode rdev env hm hrd hu hg hn hdir
    have hino : (get_obj s1 b).ino = atomic64_inc_return s.next_ino := by rw [hobj]; rfl
    have hlook : scoutfs_item_lookup s1.items
        (scoutfs_set_key (get_obj s1 b).ino SCOUTFS_INODE_KEY 0) =
        .ok { key := scoutfs_set_key (get_obj s1 b).ino SCOUTFS_INODE_KEY 0
              val_len := sizeof_scoutfs_inode
              val := List.replicate sizeof_scoutfs_inode 0 } := by
      rw [hino, ← h2]
      simp [scoutfs_item_lookup]
    refine ⟨⟨hino, ?_, ?_, ?_, ?_, ?_, ?_, ?_⟩, hlook, fun dst hd => ?_, fun dst hd => ?_⟩
    · rw [hobj]
      exact (new_inode_setup_keeps _ _ _ _ _ _).2.2.2.2.2
    · rw [hobj]
      exact (set_inode_ops_keeps _).2.2.2.2.2.2.2.2.1
    · rw [hobj]
      exact (set_inode_ops_keeps _).2.2.2.2.2.2.2.2.2.1
    · rw [hobj]
      exact (set_inode_ops_keeps _).2.2.2.2.2.2.2.2.2.2.1
    · rw [hobj]
      exact (set_inode_ops_keeps _).2.2.2.2.2.2.2.2.2.2.2.1
    · rw [hobj]
      rfl
    · intro hnone
      subst hnone
      rw [hobj]
      exact (set_inode_ops_keeps _).2.2.2.2.2.2.2.1
    · have hread : scoutfs_read_locked_inode s1 dst =
          (0, load_inode dst (scoutfs_inode_at (List.replicate sizeof_scoutfs_inode 0))) := by
        unfold scoutfs_read_locked_inode scoutfs_ino
        simp only [hd, hlook]
      rw [hread]
      exact ⟨rfl, load_blank dst⟩
    · obtain ⟨hu, -, hrd⟩ := read_after_update s1 (get_obj s1 b) dst _ hlook hd
      rw [hrd, hu]
      exact ⟨rfl, rfl, load_inode_store_fields dst _ _ hv⟩

theorem new_inode_creates_blank_record_witness :
    (get_obj created_state 0).ino = 42 ∧
    (get_obj created_state 0).inode.i_mode = 0o100644 ∧
    persisted_fields (scoutfs_read_locked_inode created_state
      { fresh_inode_info with ino := 42 }).2 = blank_fields ∧
    persisted_fields (scoutfs_read_locked_inode
      (scoutfs_inode_update created_state (get_obj created_state 0)).2
      { fresh_inode_info with ino := 42 }).2 = persisted_fields (get_obj created_state 0) :=
  have h := new_inode_creates_blank_record (mounted 4 41 []) none 0o100644 0 sample_env 0
    created_state (by decide) (by decide) (by decide) (by decide) (by decide)
    (fun d hd => by cases hd) (by decide)
  ⟨by decide, h.1.2.2.2.2.2.2.2 rfl,
    (h.2.2.1 { fresh_inode_info with ino := 42 } (by decide)).2,
    (h.2.2.2 { fresh_inode_info with ino := 42 } (by decide)).2.2⟩

/-! ## Numbering -/

theorem atomic64_inc_return_eq (v : Nat) (h : v + 1 < 2 ^ 64) : atomic64_inc_return v = v + 1 := by
  unfold atomic64_inc_return
  exact Nat.mod_eq_of_lt h

theorem new_inode_number (s : State) (dir : Option inode) (mode rdev : Nat) (env : task_env) :
    (∃ e, scoutfs_new_inode s dir mode rdev env = (.error e, (scoutfs_new_inode s dir mode rdev env).2) ∧
      ((scoutfs_new_inode s dir mode rdev env).2.next_ino = s.next_ino ∨
       (scoutfs_new_inode s dir mode rdev env).2.next_ino = atomic64_inc_return s.next_ino)) ∨
    (∃ a, scoutfs_new_inode s dir mode rdev env = (.ok a, (scoutfs_new_inode s dir mode rdev env).2) ∧
      (get_obj (scoutfs_new_inode s dir mode rdev env).2 a).ino = atomic64_inc_return s.next_ino ∧
      (scoutfs_new_inode s dir mode rdev env).2.next_ino = atomic64_inc_return s.next_ino) := by
  rcases scoutfs_new_inode_cases s dir mode rdev env with
    ⟨-, hr⟩ | ⟨c, b, c1, -, -, -, ⟨err, -, hr⟩ | ⟨-, hr⟩⟩
  · left
    rw [hr]
    exact ⟨_, rfl, Or.inl rfl⟩
  · left
    rw [hr]
    exact ⟨_, rfl, Or.inr rfl⟩
  · right
    rw [hr]
    refine ⟨b, rfl, ?_, rfl⟩
    rw [get_obj_head _ b _ s.inodes rfl]
    rfl

theorem new_inode_calls_increase (calls : List new_inode_args) :
    ∀ s : State, s.next_ino + calls.length < 2 ^ 64 →
      (∀ n ∈ (new_inode_calls s calls).1, s.next_ino < n ∧ n ≤ s.next_ino + calls.length) ∧
      (new_inode_calls s calls).1.Pairwise (fun m n => m < n) := by
  induction calls with
  | nil =>
    intro s _
    simp [new_inode_calls]
  | cons c rest ih =>
    intro s hs
    rw [List.length_cons] at hs
    have hinc : atomic64_inc_return s.next_ino = s.next_ino + 1 :=
      atomic64_inc_return_eq _ (by omega)
    rcases new_inode_number s c.dir c.mode c.rdev c.e with ⟨e, hr, hn⟩ | ⟨a, hr, hino, hn⟩
    · have hstep : new_inode_calls s (c :: rest) =
          new_inode_calls (scoutfs_new_inode s c.dir c.mode c.rdev c.e).2 rest := by
        conv_lhs => unfold new_inode_calls
        rw [hr]
      rw [hstep]
      have hb : (scoutfs_new_inode s c.dir c.mode c.rdev c.e).2.next_ino + rest.length < 2 ^ 64 := by
        rcases hn with hn | hn <;> rw [hn] <;> omega
      obtain ⟨i1, i2⟩ := ih _ hb
      refine ⟨fun n hnm => ?_, i2⟩
      have := i1 n hnm
      rw [List.length_cons]
      rcases hn with hn | hn <;> rw [hn] at this <;> omega
    · have hstep : new_inode_calls s (c :: rest) =
          ((get_obj (scoutfs_new_inode s c.dir c.mode c.rdev c.e).2 a).ino ::
            (new_inode_calls (scoutfs_new_inode s c.dir c.mode c.rdev c.e).2 rest).1,
           (new_inode_calls (scoutfs_new_inode s c.dir c.mode c.rdev c.e).2 rest).2) := by
        conv_lhs => unfold new_inode_calls
        rw [hr]
      rw [hstep]
      have hb : (scoutfs_new_inode s c.dir c.mode c.rdev c.e).2.next_ino + rest.length < 2 ^ 64 := by
        rw [hn]; omega
      obtain ⟨i1, i2⟩ := ih _ hb
      rw [hino, hinc]
      rw [hn, hinc] at i1
      refine ⟨fun n hnm => ?_, List.pairwise_cons.mpr ⟨fun n hnm => ?_, i2⟩⟩
      · rw [List.length_cons]
        rcases List.mem_cons.mp hnm with h1 | h1
        · omega
        · have := i1 n h1
          omega
      · have := i1 n hnm
        omega

/-- Counterexample to claim C8: with the counter at 2^64 - 2, two successive
`scoutfs_new_inode` calls return the numbers 2^64 - 1 and then 0: the later call receives
a smaller number. -/
theorem new_inode_numbers_wrap :
    (new_inode_calls (mounted 4 (2 ^ 64 - 2) []) [sample_args, sample_args]).1 =
      [2 ^ 64 - 1, 0] := by
  decide

/-- Claim C8, amended.  Monotonic numbering while the 64-bit counter does not wrap: every
`scoutfs_new_inode` call that returns an object gives it the number
`(next_ino + 1) mod 2^64` and stores that in the counter; for every sequence of calls on
one super block during which the counter stays below 2^64, the numbers returned are
strictly increasing in call order (so no two calls receive the same number), each greater
than the initial counter. -/
theorem new_inode_numbers_increase (s : State) (calls : List new_inode_args)
    (h : s.next_ino + calls.length < 2 ^ 64) :
    (∀ dir mode rdev env a s1, scoutfs_new_inode s dir mode rdev env = (.ok a, s1) →
      (get_obj s1 a).ino = (s.next_ino + 1) % 2 ^ 64 ∧
      s1.next_ino = (s.next_ino + 1) % 2 ^ 64) ∧
    (new_inode_calls s calls).1.Pairwise (fun m n => m < n) ∧
    (∀ n ∈ (new_inode_calls s calls).1, s.next_ino < n ∧ n ≤ s.next_ino + calls.length) := by
  refine ⟨fun dir mode rdev env a s1 hr => ?_, (new_inode_calls_increase calls s h).2,
    (new_inode_calls_increase calls s h).1⟩
  rcases new_inode_number s dir mode rdev env with ⟨e, hr0, -⟩ | ⟨b, hr0, hino, hn⟩
  · rw [hr] at hr0
    injection hr0 with h1 _
    cases h1
  · rw [hr] at hr0 hino hn
    injection hr0 with h1 _
    injection h1 with h1
    subst h1
    exact ⟨hino, hn⟩

theorem new_inode_numbers_increase_witness :
    (new_inode_calls (mounted 4 41 []) [sample_args, sample_args, sample_args]).1 =
      [42, 43, 44] ∧
    (new_inode_calls (mounted 4 41 []) [sample_args, sample_args, sample_args]).1.Pairwise
      (fun m n => m < n) :=
  ⟨by decide,
   (new_inode_numbers_increase (mounted 4 41 []) [sample_args, sample_args, sample_args]
     (by decide)).2.1⟩

end Scoutfs
